import Mathlib

/-!
Verification development for the pagenodes-mcp device-registry-and-RPC-bridge
core (src/server.js).  The JavaScript source is shallowly embedded: the
process-wide `devices` and `aggregatedNodeCatalog` Maps become association
lists, the register/unregister handlers become a step function on an explicit
server state, and the MCP dispatcher / tool handlers become total Lean
functions.  Remote (device-side) calls are modelled as an oracle
`Nat → String → Except String obj` mapping a WebSocket connection id and a
remote method name to the settled outcome of that call (fulfilled object or
rejection message), since the core treats every remote payload as opaque.
-/

set_option linter.unusedVariables false

namespace PagenodesMcp

/-! ## JavaScript-style helpers -/

/-- JS truthiness of an optional string argument: `undefined` (absent) and the
empty string are falsy, everything else truthy (`if (!deviceId)` in the source). -/
def strTruthy : Option String → Bool
  | none => false
  | some s => s ≠ ""

/-- JS `s || d` for strings, where only the empty string is falsy. -/
def jsOr (s d : String) : String := if s = "" then d else s

/-- JS `x?.f || d` for an optional string field. -/
def jsOrOpt (s : Option String) (d : String) : String :=
  match s with
  | none => d
  | some v => jsOr v d

/-- JS `x?.f || null` for an optional string field: an empty string collapses
to `null` (`url: info?.url || null` in the source). -/
def jsOrNull (s : Option String) : Option String :=
  match s with
  | none => none
  | some v => if v = "" then none else some v

/-! ## Association lists modelling JS `Map` objects

JS `Map` keeps insertion order; `set` on an existing key updates the value in
place (keeping the original position), and otherwise appends. -/

/-- `Map.prototype.get`. -/
def mapGet [DecidableEq κ] (m : List (κ × α)) (k : κ) : Option α :=
  (m.find? (fun p => p.1 = k)).map (·.2)

/-- `Map.prototype.set`. -/
def mapSet [DecidableEq κ] (m : List (κ × α)) (k : κ) (v : α) : List (κ × α) :=
  if m.any (fun p => p.1 = k) then
    m.map (fun p => if p.1 = k then (k, v) else p)
  else m ++ [(k, v)]

/-- `Map.prototype.delete`. -/
def mapDelete [DecidableEq κ] (m : List (κ × α)) (k : κ) : List (κ × α) :=
  m.filter (fun p => p.1 ≠ k)

/-- The keys of the map, in iteration order. -/
def keys (m : List (κ × α)) : List κ := m.map (·.1)

/-! ## Device registry data model (src/server.js lines 19-53) -/

/-- One entry of a device's fetched node catalog.  Only `type`, `category` and
`description` are read by the server; a JS field that is absent is modelled as
the empty string, which the source treats identically (both are falsy). -/
structure NodeEntry where
  type : String
  category : String
  description : String
deriving DecidableEq, Repr

/-- The value stored in `aggregatedNodeCatalog` under a node-type key.  The
redundant `type` field of the source value always equals the key and is
represented by the key of the association list. -/
structure AggData where
  category : String
  description : String
  devices : List String
deriving DecidableEq, Repr

/-- A device registration record (the schema comment at the top of
src/server.js).  `rtype` is the source's `type` field; `connectedAt` and
`lastSeen` are abstract clock readings; `legacy` models `meta: { legacy: true }`
set by the legacy registration path. -/
structure Registration where
  id : String
  rtype : String
  name : String
  description : String
  url : Option String
  nodes : List String
  status : String
  connectedAt : Nat
  lastSeen : Nat
  legacy : Bool
deriving DecidableEq, Repr

/-- The value stored in the `devices` map: the registration, the fetched node
catalog, and the identity of the WebSocket connection (standing in for the
`peer`/`ws` pair, which are tied to that connection). -/
structure DeviceEntry where
  connId : Nat
  registration : Registration
  nodeCatalog : List NodeEntry
deriving DecidableEq, Repr

/-! ## The aggregated node catalog (src/server.js lines 55-97) -/

/-- Processing of a single catalog node inside `rebuildAggregatedCatalog`:
skip nodes without a type; push the owning device id onto an existing entry;
otherwise create a fresh entry whose category defaults to `"unknown"`. -/
def addNode (agg : List (String × AggData)) (deviceId : String) (n : NodeEntry) :
    List (String × AggData) :=
  if n.type = "" then agg
  else
    match mapGet agg n.type with
    | some e => mapSet agg n.type { e with devices := e.devices ++ [deviceId] }
    | none =>
        agg ++ [(n.type,
          { category := jsOr n.category "unknown"
            description := n.description
            devices := [deviceId] })]

/-- The inner loop of `rebuildAggregatedCatalog` over one device's catalog. -/
def addCatalog (agg : List (String × AggData)) (deviceId : String)
    (cat : List NodeEntry) : List (String × AggData) :=
  cat.foldl (fun a n => addNode a deviceId n) agg

/-- The outer loop of `rebuildAggregatedCatalog`, starting from a given
accumulator. -/
def rebuildFrom (agg : List (String × AggData))
    (devs : List (String × DeviceEntry)) : List (String × AggData) :=
  devs.foldl (fun a p => addCatalog a p.1 p.2.nodeCatalog) agg

/-- `rebuildAggregatedCatalog` (src/server.js lines 56-78): clear the aggregate
and re-derive it from every registered device's cached catalog. -/
def rebuildAggregatedCatalog (devs : List (String × DeviceEntry)) :
    List (String × AggData) :=
  rebuildFrom [] devs

/-- One entry of the category-grouped projection built by
`getAggregatedCatalog`. -/
structure CatalogEntry where
  type : String
  description : String
  devices : List String
deriving DecidableEq, Repr

/-- `getAggregatedCatalog` (src/server.js lines 81-97): group the aggregate by
category (`node.category || 'other'`). -/
def getAggregatedCatalog (agg : List (String × AggData)) :
    List (String × List CatalogEntry) :=
  agg.foldl
    (fun acc p =>
      let cat := jsOr p.2.category "other"
      let entry : CatalogEntry :=
        { type := p.1, description := p.2.description, devices := p.2.devices }
      match mapGet acc cat with
      | some l => mapSet acc cat (l ++ [entry])
      | none => acc ++ [(cat, [entry])])
    []

/-! ## Registration / unregistration state machine
(src/server.js lines 1319-1407) -/

/-- The caller-supplied registration payload (`info`).  Absent JS fields are
`none`; `capNodes` models `info?.capabilities?.nodes`. -/
structure RegInfo where
  id : Option String
  rtype : Option String
  name : Option String
  description : Option String
  url : Option String
  nodes : Option (List String)
  capNodes : Option (List String)
deriving DecidableEq, Repr

/-- `deviceId = info?.id || generateDeviceId()` (line 1332): the fresh id
produced by `generateDeviceId` is passed in as `freshId`. -/
def deviceIdOf (info : RegInfo) (freshId : String) : String :=
  jsOrOpt info.id freshId

/-- The registration record built by the `registerDevice` handler
(src/server.js lines 1334-1346). -/
def mkRegistration (deviceId : String) (now : Nat) (info : RegInfo) :
    Registration :=
  { id := deviceId
    rtype := jsOrOpt info.rtype "unknown"
    name := jsOrOpt info.name ("Device " ++ deviceId.take 8)
    description := jsOrOpt info.description ""
    url := jsOrNull info.url
    nodes := ((info.nodes).orElse (fun _ => info.capNodes)).getD []
    status := "online"
    connectedAt := now
    lastSeen := now
    legacy := false }

/-- The registration record built by the legacy `registerClient` handler
(src/server.js lines 1373-1384); note it never reads `info.id`. -/
def mkLegacyRegistration (deviceId : String) (now : Nat) (info : RegInfo) :
    Registration :=
  { id := deviceId
    rtype := "browser"
    name := jsOrOpt info.name ("Browser " ++ deviceId.take 8)
    description := "Legacy PageNodes client"
    url := jsOrNull info.url
    nodes := []
    status := "online"
    connectedAt := now
    lastSeen := now
    legacy := true }

/-- An observable operation on the registry.  For `registerDevice`, `fetched`
is the outcome of the asynchronous post-registration `getState()` catalog
fetch: `some cat` when the fetch fulfils with a state carrying `nodeCatalog`,
`none` when it rejects (or the state has no catalog), in which case the source
only logs and neither stores a catalog nor rebuilds the aggregate. -/
inductive Event where
  | registerDevice (conn : Nat) (info : RegInfo) (freshId : String) (now : Nat)
      (fetched : Option (List NodeEntry))
  | registerClient (conn : Nat) (info : RegInfo) (freshId : String) (now : Nat)
  | wsClose (conn : Nat)
deriving DecidableEq, Repr

/-- The process-wide mutable state: the `devices` map, the
`aggregatedNodeCatalog` map, and each live connection's `deviceId` closure
variable (src/server.js line 1321), absent until that connection registers. -/
structure ServerState where
  devices : List (String × DeviceEntry)
  agg : List (String × AggData)
  connDevice : List (Nat × String)
deriving DecidableEq, Repr

def initState : ServerState :=
  { devices := [], agg := [], connDevice := [] }

/-- The response returned by both registration handlers
(`{ success: true, deviceId }`). -/
structure RegResponse where
  success : Bool
  deviceId : String
deriving DecidableEq, Repr

/-- One step of the registry state machine, returning the new state and the
handler's response (for registrations). -/
def step (s : ServerState) : Event → ServerState × Option RegResponse
  | .registerDevice conn info freshId now fetched =>
    let deviceId := deviceIdOf info freshId
    let reg := mkRegistration deviceId now info
    let devices1 :=
      mapSet s.devices deviceId
        { connId := conn, registration := reg, nodeCatalog := [] }
    let connDevice1 := mapSet s.connDevice conn deviceId
    let s1 :=
      match fetched with
      | some cat =>
        let devices2 :=
          mapSet devices1 deviceId
            { connId := conn, registration := reg, nodeCatalog := cat }
        { devices := devices2
          agg := rebuildAggregatedCatalog devices2
          connDevice := connDevice1 }
      | none =>
        { devices := devices1, agg := s.agg, connDevice := connDevice1 }
    (s1, some { success := true, deviceId := deviceId })
  | .registerClient conn info freshId now =>
    let reg := mkLegacyRegistration freshId now info
    let devices1 :=
      mapSet s.devices freshId
        { connId := conn, registration := reg, nodeCatalog := [] }
    ({ devices := devices1
       agg := s.agg
       connDevice := mapSet s.connDevice conn freshId },
     some { success := true, deviceId := freshId })
  | .wsClose conn =>
    match mapGet s.connDevice conn with
    | some d =>
      if (mapGet s.devices d).isSome then
        let devices1 := mapDelete s.devices d
        ({ devices := devices1
           agg := rebuildAggregatedCatalog devices1
           connDevice := s.connDevice }, none)
      else (s, none)
    | none => (s, none)

/-- Run a sequence of registry operations. -/
def run (s : ServerState) : List Event → ServerState
  | [] => s
  | e :: es => run (step s e).1 es

/-- Freshness of the id a registration event will insert, relative to the
current state: a `registerDevice` whose catalog fetch fails must not reuse a
currently-registered id, and a generated legacy id must be fresh. -/
def okEvent (s : ServerState) : Event → Bool
  | .registerDevice _ info freshId _ fetched =>
      fetched.isSome || (mapGet s.devices (deviceIdOf info freshId)).isNone
  | .registerClient _ _ freshId _ => (mapGet s.devices freshId).isNone
  | .wsClose _ => true

/-- Every event of the trace satisfies `okEvent` at the state it fires in. -/
def okTrace : ServerState → List Event → Bool
  | _, [] => true
  | s, e :: es => okEvent s e && okTrace (step s e).1 es

/-- The node types a catalog advertises (nodes with an empty `type` are
skipped by the aggregator). -/
def catalogTypes (cat : List NodeEntry) : List String :=
  (cat.filter (fun n => n.type ≠ "")).map (·.type)

/-- Every catalog delivered by a fetch in the trace lists each (nonempty)
node type at most once. -/
def nodupCatalogs : List Event → Bool
  | [] => true
  | .registerDevice _ _ _ _ (some cat) :: es =>
      decide (catalogTypes cat).Nodup && nodupCatalogs es
  | _ :: es => nodupCatalogs es

/-! ## SSE session model (src/server.js lines 99-100, 1078-1156) -/

/-- An observable operation on the `sseConnections` map: a client opening the
SSE stream (which stores a generated session id) or the stream closing (the
`req.on('close')` handler deletes the id). -/
inductive SseEvent where
  | sseOpen (sid : String)
  | sseClose (sid : String)
deriving DecidableEq, Repr

/-- Effect of an SSE event on the set of live session ids. -/
def sseStep (sessions : List String) : SseEvent → List String
  | .sseOpen sid => if sid ∈ sessions then sessions else sessions ++ [sid]
  | .sseClose sid => sessions.filter (fun s => s ≠ sid)

def sseRun (sessions : List String) : List SseEvent → List String
  | [] => sessions
  | e :: es => sseRun (sseStep sessions e) es

/-- Outcome of `POST /message` (src/server.js lines 1125-1133): the absent
query parameter is `null`, and a `Map.get` miss yields the 400 branch;
otherwise the request is dispatched on that session's connection. -/
inductive PostOutcome where
  | badRequest
  | dispatched (sid : String)
deriving DecidableEq, Repr

def postMessage (sessions : List String) (sid : Option String) : PostOutcome :=
  match sid with
  | none => .badRequest
  | some s => if s ∈ sessions then .dispatched s else .badRequest

/-! ## JS values and object-literal semantics

Remote results are JS objects.  Only the top-level keys matter to the server
(it merely tags and re-serialises them), so values are modelled flatly, with
`otherV` standing for any structured value the core never inspects. -/

inductive JsVal where
  | str (s : String)
  | num (n : Int)
  | boolV (b : Bool)
  | nullV
  | reg (r : Registration)
  | strList (l : List String)
  | otherV (tag : Nat)
deriving DecidableEq, Repr

/-- A JS object as an ordered association list of its own properties. -/
abbrev JsObj := List (String × JsVal)

/-- Property assignment in an object literal: a repeated key overwrites the
value but keeps the first position, matching JS semantics. -/
def objSet (o : JsObj) (k : String) (v : JsVal) : JsObj := mapSet o k v

/-- Object spread `{ ...o, ...r }`: each property of `r` is assigned in order
on top of `o`, so keys of `r` override earlier keys of `o`. -/
def objSpread (o : JsObj) (r : JsObj) : JsObj :=
  r.foldl (fun acc kv => objSet acc kv.1 kv.2) o

def objGet (o : JsObj) (k : String) : Option JsVal := mapGet o k

/-- `{ deviceId: <id>, ...result }`: the tagging pattern shared by the
single-device tool handlers (e.g. `toolGetFlows`, src/server.js line 820). -/
def tagDevice (id : String) (r : JsObj) : JsObj :=
  objSpread [("deviceId", JsVal.str id)] r

/-! ## Device resolution (src/server.js lines 523-583) -/

/-- The `{ id, name, type }` summary used in the choose-device advisory and
the aggregated `get_started` view. -/
structure DevSummary where
  id : String
  name : String
  rtype : String
deriving DecidableEq, Repr

def deviceSummaries (devs : List (String × DeviceEntry)) : List DevSummary :=
  devs.map (fun p =>
    { id := p.2.registration.id
      name := p.2.registration.name
      rtype := p.2.registration.rtype })

/-- The three advisory payloads `requireDevice` can produce.  The
choose-device advisory embeds the current device list. -/
inductive Advisory where
  | noDevices
  | chooseDevice (deviceList : List DevSummary)
  | notFound (deviceId : String)
deriving DecidableEq, Repr

/-- The text of the not-found advisory (src/server.js line 577). -/
def notFoundText (deviceId : String) : String :=
  "Device \"" ++ deviceId ++ "\" not found. Use list_devices to see available devices."

inductive RequireResult where
  | advisory (a : Advisory)
  | found (d : DeviceEntry)
deriving DecidableEq, Repr

/-- `MCPHandler.requireDevice`: a falsy `deviceId` yields the zero-devices or
choose-a-device advisory; a truthy but unregistered one yields the not-found
advisory; otherwise the device entry. -/
def requireDevice (devs : List (String × DeviceEntry)) (deviceId : Option String) :
    RequireResult :=
  if strTruthy deviceId = false then
    if devs.length = 0 then .advisory .noDevices
    else .advisory (.chooseDevice (deviceSummaries devs))
  else
    match mapGet devs (deviceId.getD "") with
    | none => .advisory (.notFound (deviceId.getD ""))
    | some d => .found d

/-! ## Tool dispatch (src/server.js lines 586-1023)

The dispatch environment carries the `devices` map, the remote-call oracle
(keyed by the device's connection, i.e. its `peer`, and the remote method
name; the arguments forwarded to the device do not influence the core, so
they are not part of the key), the per-connection custom-tool name list
(`getCustomTools`, with its rejection already collapsed to `[]` as in the
source's `catch`), and the loaded guide markdown. -/

structure Env where
  devs : List (String × DeviceEntry)
  agg : List (String × AggData)
  outcomes : Nat → String → Except String JsObj
  customTools : Nat → List String
  guide : String

/-- The per-device object assembled by `toolListDevices`
(src/server.js lines 726-739). -/
structure DeviceListing where
  id : String
  rtype : String
  name : String
  description : String
  status : String
  url : Option String
  connectedAt : Nat
  nodes : List String
  nodeCount : Nat
  customTools : List String
deriving DecidableEq, Repr

/-- The structured result of a tool handler before JSON serialisation.  The
source stringifies these into the single text content block of the MCP
tool result; the claims are about the structure, which serialisation
preserves. -/
inductive ToolVal where
  | advisoryVal (a : Advisory)
  | obj (o : JsObj)
  | broadcastVal (countKey : String) (results : List JsObj)
  | listing (devices : List DeviceListing)
  | aggView (connectedDevices : Nat) (devices : List DevSummary)
      (nodeCatalog : List (String × List CatalogEntry))
  | resultWrap (deviceId : String) (result : JsObj)
  | textVal (s : String)
deriving DecidableEq, Repr

/-- The wrapped MCP tool result: its content payload and the `isError` flag. -/
structure ToolCallResult where
  body : ToolVal
  isError : Bool
deriving DecidableEq, Repr

/-- The common shape of the device-scoped tool handlers: resolve the device
(returning the advisory as a normal result on failure), issue one remote call
on its connection, and tag the fulfilled result with the registration id; a
rejection propagates as a thrown error. -/
def singleCall (env : Env) (deviceId : Option String) (method : String) :
    Except String ToolVal :=
  match requireDevice env.devs deviceId with
  | .advisory a => .ok (.advisoryVal a)
  | .found d =>
    match env.outcomes d.connId method with
    | .ok r => .ok (.obj (tagDevice d.registration.id r))
    | .error m => .error m

/-- The broadcast loop shared by `toolDeploy` and `toolSendMcpMessage`
(src/server.js lines 857-867 and 983-993): iterate the `devices` map, await
each device's remote call inside a per-iteration try/catch, and tag each entry
with the map key.  Note the fulfilled branch spreads the remote result after
the tag. -/
def broadcastCall (devs : List (String × DeviceEntry))
    (outcomes : Nat → String → Except String JsObj) (method : String) :
    List JsObj :=
  devs.map (fun p =>
    match outcomes p.2.connId method with
    | .ok r =>
        objSpread [("deviceId", JsVal.str p.1), ("success", JsVal.boolV true)] r
    | .error m =>
        [("deviceId", JsVal.str p.1), ("success", JsVal.boolV false),
         ("error", JsVal.str m)])

/-- `toolDeploy`: broadcast when the selector is the sentinel `"all"`,
otherwise the single-device pattern. -/
def toolDeploy (env : Env) (deviceId : Option String) : Except String ToolVal :=
  if deviceId = some "all" then
    .ok (.broadcastVal "deployedTo" (broadcastCall env.devs env.outcomes "deploy"))
  else singleCall env deviceId "deploy"

/-- `toolSendMcpMessage`: same broadcast special case with `sendMessage`. -/
def toolSendMcpMessage (env : Env) (deviceId : Option String) :
    Except String ToolVal :=
  if deviceId = some "all" then
    .ok (.broadcastVal "sentTo" (broadcastCall env.devs env.outcomes "sendMessage"))
  else singleCall env deviceId "sendMessage"

/-- `toolListDevices` (src/server.js lines 707-746) with the three conjunctive
truthy filters. -/
def toolListDevices (env : Env) (argType status node : Option String) : ToolVal :=
  .listing
    ((env.devs.filter (fun p =>
        (strTruthy argType = false || p.2.registration.rtype = argType.getD "") &&
        (strTruthy status = false || p.2.registration.status = status.getD "") &&
        (strTruthy node = false || p.2.registration.nodes.contains (node.getD "")))).map
      (fun p =>
        { id := p.1
          rtype := p.2.registration.rtype
          name := p.2.registration.name
          description := p.2.registration.description
          status := p.2.registration.status
          url := p.2.registration.url
          connectedAt := p.2.registration.connectedAt
          nodes := p.2.registration.nodes
          nodeCount := p.2.registration.nodes.length
          customTools := env.customTools p.2.connId }))

/-- `toolGetDeviceDetails` (src/server.js lines 749-769):
`{ registration, ...state, customTools }`. -/
def toolGetDeviceDetails (env : Env) (deviceId : Option String) :
    Except String ToolVal :=
  match requireDevice env.devs deviceId with
  | .advisory a => .ok (.advisoryVal a)
  | .found d =>
    match env.outcomes d.connId "getState" with
    | .ok st =>
        .ok (.obj (objSet (objSpread [("registration", JsVal.reg d.registration)] st)
          "customTools" (JsVal.strList (env.customTools d.connId))))
    | .error m => .error m

/-- `toolGetStarted` (src/server.js lines 771-813): aggregated view without a
device id, full per-device view with one. -/
def toolGetStarted (env : Env) (deviceId : Option String) :
    Except String ToolVal :=
  if strTruthy deviceId = false then
    if env.devs.length = 0 then .ok (.aggView 0 [] [])
    else
      .ok (.aggView env.devs.length (deviceSummaries env.devs)
        (getAggregatedCatalog env.agg))
  else
    match requireDevice env.devs deviceId with
    | .advisory a => .ok (.advisoryVal a)
    | .found d =>
      match env.outcomes d.connId "getState" with
      | .ok st =>
          .ok (.obj (objSpread
            [("guide", JsVal.str env.guide),
             ("deviceId", JsVal.str d.registration.id),
             ("deviceType", JsVal.str d.registration.rtype),
             ("deviceName", JsVal.str d.registration.name),
             ("connectedDevices", JsVal.num env.devs.length)] st))
      | .error m => .error m

/-- `toolUseCustomTool` (src/server.js lines 1013-1023): device resolution
first, then the tool-name check, then `{ deviceId, result }` with the remote
result nested (not spread). -/
def toolUseCustomTool (env : Env) (deviceId : Option String)
    (toolNameArg : Option String) : Except String ToolVal :=
  match requireDevice env.devs deviceId with
  | .advisory a => .ok (.advisoryVal a)
  | .found d =>
    if strTruthy toolNameArg = false then
      .ok (.obj [("error", JsVal.str "Tool name is required")])
    else
      match env.outcomes d.connId "useCustomTool" with
      | .ok r => .ok (.resultWrap d.registration.id r)
      | .error m => .error m

/-- The arguments of a `tools/call` request that the core reads.  Arguments
that are only forwarded to the device (payload, nodes, updates, ...) are
absorbed by the remote-call oracle. -/
structure Args where
  deviceId : Option String
  argType : Option String
  status : Option String
  node : Option String
  name : Option String
deriving DecidableEq, Repr

structure ToolCallParams where
  name : String
  args : Option Args
deriving DecidableEq, Repr

def argDevice (args : Option Args) : Option String :=
  args.bind (·.deviceId)

/-- The advertised tool names, in the order of `MCP_TOOLS`
(src/server.js lines 117-452). -/
def toolNames : List String :=
  ["list_devices", "get_device_details", "get_started", "get_flows",
   "create_flow", "add_nodes", "update_node", "delete_node", "deploy",
   "get_debug_output", "get_errors", "get_logs", "clear_logs",
   "get_inject_nodes", "inject_node", "get_node_details", "trigger_node",
   "clear_debug", "clear_errors", "get_node_statuses", "get_canvas_svg",
   "get_mcp_messages", "send_mcp_message", "get_custom_tools",
   "use_custom_tool"]

/-- Wrap a tool handler outcome the way `handleToolCall`'s try/catch does: a
throw becomes a normal tool result with `isError: true` and the text
`Error: <message>`. -/
def wrapCall (r : Except String ToolVal) : ToolCallResult :=
  match r with
  | .ok v => { body := v, isError := false }
  | .error m => { body := .textVal ("Error: " ++ m), isError := true }

/-- `MCPHandler.handleToolCall` (src/server.js lines 586-702): `list_devices`
is special-cased first; then the switch over tool names, with unknown tools
throwing into the catch. -/
def handleToolCall (env : Env) (p : ToolCallParams) : ToolCallResult :=
  if p.name = "list_devices" then
    { body := toolListDevices env (p.args.bind (·.argType))
        (p.args.bind (·.status)) (p.args.bind (·.node))
      isError := false }
  else
    wrapCall
      (match p.name with
       | "get_device_details" => toolGetDeviceDetails env (argDevice p.args)
       | "get_started" => toolGetStarted env (argDevice p.args)
       | "get_flows" => singleCall env (argDevice p.args) "getFlows"
       | "create_flow" => singleCall env (argDevice p.args) "createFlow"
       | "add_nodes" => singleCall env (argDevice p.args) "addNodes"
       | "update_node" => singleCall env (argDevice p.args) "updateNode"
       | "delete_node" => singleCall env (argDevice p.args) "deleteNode"
       | "deploy" => toolDeploy env (argDevice p.args)
       | "get_debug_output" => singleCall env (argDevice p.args) "getDebugOutput"
       | "get_errors" => singleCall env (argDevice p.args) "getErrors"
       | "get_logs" => singleCall env (argDevice p.args) "getLogs"
       | "clear_logs" => singleCall env (argDevice p.args) "clearLogs"
       | "get_inject_nodes" => singleCall env (argDevice p.args) "getInjectNodes"
       | "inject_node" => singleCall env (argDevice p.args) "inject"
       | "get_node_details" => singleCall env (argDevice p.args) "getNodeDetails"
       | "trigger_node" => singleCall env (argDevice p.args) "trigger"
       | "clear_debug" => singleCall env (argDevice p.args) "clearDebug"
       | "clear_errors" => singleCall env (argDevice p.args) "clearErrors"
       | "get_node_statuses" => singleCall env (argDevice p.args) "getNodeStatuses"
       | "get_canvas_svg" => singleCall env (argDevice p.args) "getCanvasSvg"
       | "get_mcp_messages" => singleCall env (argDevice p.args) "getMessages"
       | "send_mcp_message" => toolSendMcpMessage env (argDevice p.args)
       | "get_custom_tools" => singleCall env (argDevice p.args) "getCustomTools"
       | "use_custom_tool" =>
           toolUseCustomTool env (argDevice p.args) (p.args.bind (·.name))
       | n => .error ("Unknown tool: " ++ n))

/-! ## JSON-RPC dispatcher (src/server.js lines 461-501) -/

/-- A JSON-RPC request: `id` is `none` when the field is absent (a JSON
`null` id is present, hence `some JsVal.nullV`). -/
structure Request where
  id : Option JsVal
  method : String
  params : Option ToolCallParams
deriving DecidableEq, Repr

inductive RpcResult where
  | initRes
  | toolsListRes (tools : List String)
  | toolCallRes (r : ToolCallResult)
  | pong
deriving DecidableEq, Repr

inductive RpcResponse where
  | result (id : JsVal) (r : RpcResult)
  | errorResp (id : JsVal) (message : String)
deriving DecidableEq, Repr

/-- The body of `handleRequest`'s switch: which methods succeed, and which
throw into the catch.  Destructuring absent `params` in `handleToolCall`
throws, modelled by the error branch. -/
def dispatchMethod (env : Env) (method : String) (params : Option ToolCallParams) :
    Except String RpcResult :=
  match method with
  | "initialize" => .ok .initRes
  | "tools/list" => .ok (.toolsListRes toolNames)
  | "tools/call" =>
      match params with
      | none => .error "Cannot destructure 'params'"
      | some p => .ok (.toolCallRes (handleToolCall env p))
  | "ping" => .ok .pong
  | m => .error ("Unknown method: " ++ m)

/-- `MCPHandler.handleRequest`: `notifications/initialized` short-circuits to
no response; otherwise a response (success or error envelope) is produced
exactly when the request carried an id. -/
def handleRequest (env : Env) (req : Request) : Option RpcResponse :=
  if req.method = "notifications/initialized" then none
  else
    match dispatchMethod env req.method req.params with
    | .ok r => req.id.map (fun i => .result i r)
    | .error m => req.id.map (fun i => .errorResp i m)

/-! ## Broadcast control-flow trace (for the concurrency claim)

The broadcast loop of `toolDeploy`/`toolSendMcpMessage` executes
`const result = await device.peer.methods.deploy()` inside the `for` body:
each iteration issues the remote call and then awaits that same call before
the next iteration begins.  The trace records, in program order, when each
device's call is issued and when its settlement is awaited. -/

inductive BcastStep where
  | issue (connId : Nat)
  | awaited (connId : Nat)
deriving DecidableEq, Repr

/-- The order of issue/await operations performed by the broadcast loop. -/
def broadcastTrace : List (String × DeviceEntry) → List BcastStep
  | [] => []
  | p :: rest => .issue p.2.connId :: .awaited p.2.connId :: broadcastTrace rest

def BcastStep.isIssue : BcastStep → Bool
  | .issue _ => true
  | .awaited _ => false

/-- The property claimed of the broadcast: every call is issued before any
single result is awaited. -/
def issuedBeforeAnyAwait (tr : List BcastStep) : Prop :=
  ∀ (i j : Fin tr.length),
    (tr.get i).isIssue = true → (tr.get j).isIssue = false →
    (i : Nat) < j

instance (tr : List BcastStep) : Decidable (issuedBeforeAnyAwait tr) := by
  unfold issuedBeforeAnyAwait
  infer_instance

/-! ## Derived quantities used by the theorems -/

/-- How many nodes of a catalog advertise the given (nonempty) type; the
aggregator pushes the owning device id once per such node. -/
def typeCount : List NodeEntry → String → Nat
  | [], _ => 0
  | n :: cat, t =>
      (if n.type ≠ "" ∧ n.type = t then 1 else 0) + typeCount cat t

/-- The devices list the rebuilt aggregate stores under type `t`, empty when
there is no entry. -/
def devGet (agg : List (String × AggData)) (t : String) : List String :=
  ((mapGet agg t).map (fun e => e.devices)).getD []

/-- The device ids contributed to type `t` by a full rebuild, in registry
order, with one occurrence per catalog node of that type. -/
def contrib (devs : List (String × DeviceEntry)) (t : String) : List String :=
  devs.flatMap (fun p => List.replicate (typeCount p.2.nodeCatalog t) p.1)

/-- The per-device-entry shape claimed for broadcast results: entry `i`
carries the id of device `i` and a boolean success flag. -/
def entriesCarryIds (devs : List (String × DeviceEntry)) (entries : List JsObj) :
    Prop :=
  entries.length = devs.length ∧
  ∀ (i : Fin entries.length) (h : (i : Nat) < devs.length),
    objGet (entries.get i) "deviceId" = some (JsVal.str (devs.get ⟨i, h⟩).1) ∧
    ∃ b, objGet (entries.get i) "success" = some (JsVal.boolV b)

instance (devs : List (String × DeviceEntry)) (entries : List JsObj) :
    Decidable (entriesCarryIds devs entries) := by
  unfold entriesCarryIds
  infer_instance

/-! ## Concrete instances used by counterexamples and witnesses -/

/-- A registration payload carrying only an id. -/
def regInfo (id : Option String) : RegInfo :=
  { id := id, rtype := none, name := none, description := none, url := none,
    nodes := none, capNodes := none }

/-- A catalog with a single `inject` node. -/
def injectNodeE : NodeEntry :=
  { type := "inject", category := "common", description := "Inject a message" }

/-- Trace refuting the unconditional aggregate-rebuild equality: device `A`
registers with a catalog, then a second connection re-registers the same
caller-supplied id `A` but its catalog fetch fails, leaving the aggregate
stale. -/
def evC1bad : List Event :=
  [.registerDevice 1 (regInfo (some "A")) "device-f1" 0 (some [injectNodeE]),
   .registerDevice 2 (regInfo (some "A")) "device-f2" 1 none]

/-- A fresh-id trace used to witness the amended aggregate invariant. -/
def evC1good : List Event :=
  [.registerDevice 1 (regInfo (some "A")) "device-f1" 0 (some [injectNodeE]),
   .registerClient 2 (regInfo none) "device-b2" 1,
   .registerDevice 3 (regInfo none) "device-c3" 2 none,
   .wsClose 1]

/-- Trace refuting duplicate-freeness of the per-type device lists: one
device's fetched catalog lists the same type twice. -/
def evC8bad : List Event :=
  [.registerDevice 1 (regInfo (some "A")) "device-f1" 0
    (some [injectNodeE, injectNodeE])]

/-- Trace used to witness the amended no-duplicate claim: two devices that
each advertise `inject` once. -/
def evC8good : List Event :=
  [.registerDevice 1 (regInfo (some "A")) "device-f1" 0 (some [injectNodeE]),
   .registerDevice 2 (regInfo (some "B")) "device-f2" 1
     (some [injectNodeE, { type := "debug", category := "common", description := "" }])]

/-- Trace for the duplicate-registration claim: connection 1 registers `A`,
connection 2 re-registers the same id, then connection 1's socket closes. -/
def evC10 : List Event :=
  [.registerDevice 1 (regInfo (some "A")) "device-f1" 0 none,
   .registerDevice 2 (regInfo (some "A")) "device-f2" 1 none]

/-- A device entry as stored after a plain registration without a catalog. -/
def mkDev (conn : Nat) (id : String) : DeviceEntry :=
  { connId := conn
    registration := mkRegistration id 0 (regInfo (some id))
    nodeCatalog := [] }

/-- Environment with one device whose remote results adversarially carry a
`deviceId` property of their own. -/
def envEvil : Env :=
  { devs := [("d1", mkDev 1 "d1")]
    agg := []
    outcomes := fun _ _ => .ok [("deviceId", JsVal.str "evil")]
    customTools := fun _ => []
    guide := "" }

/-- Environment with three devices where exactly the second device's remote
calls reject; all fulfilled results are plain objects. -/
def envThree : Env :=
  { devs := [("d1", mkDev 1 "d1"), ("d2", mkDev 2 "d2"), ("d3", mkDev 3 "d3")]
    agg := []
    outcomes := fun c _ => if c = 2 then .error "boom" else .ok [("ok", JsVal.boolV true)]
    customTools := fun _ => []
    guide := "" }

/-- Environment with no connected devices. -/
def envNone : Env :=
  { devs := []
    agg := []
    outcomes := fun _ _ => .ok []
    customTools := fun _ => []
    guide := "" }

/-! ## Lemmas about the `Map` model -/

@[simp]
theorem mapGet_nil [DecidableEq κ] (k : κ) : mapGet ([] : List (κ × α)) k = none :=
  rfl

theorem mapGet_cons [DecidableEq κ] (p : κ × α) (m : List (κ × α)) (k : κ) :
    mapGet (p :: m) k = if p.1 = k then some p.2 else mapGet m k := by
  by_cases h : p.1 = k
  · simp [mapGet, List.find?_cons, h]
  · simp [mapGet, List.find?_cons, h]

theorem mapGet_append [DecidableEq κ] (m₁ m₂ : List (κ × α)) (k : κ) :
    mapGet (m₁ ++ m₂) k =
      match mapGet m₁ k with
      | some v => some v
      | none => mapGet m₂ k := by
  induction m₁ with
  | nil => simp
  | cons p m ih =>
    by_cases h : p.1 = k <;> simp [mapGet_cons, h, ih]

theorem mapGet_eq_none_iff [DecidableEq κ] (m : List (κ × α)) (k : κ) :
    mapGet m k = none ↔ k ∉ keys m := by
  induction m with
  | nil => simp [keys]
  | cons p m ih =>
    by_cases h : p.1 = k
    · simp [mapGet_cons, h, keys]
    · simp only [mapGet_cons, if_neg h, keys, List.map_cons, List.mem_cons, ih]
      constructor
      · intro hn hc
        rcases hc with hc | hc
        · exact h hc.symm
        · exact hn hc
      · intro hn
        exact fun hc => hn (Or.inr hc)

theorem any_key_iff [DecidableEq κ] (m : List (κ × α)) (k : κ) :
    m.any (fun p => p.1 = k) = true ↔ k ∈ keys m := by
  induction m with
  | nil => simp [keys]
  | cons p m ih =>
    by_cases h : p.1 = k
    · simp [keys, h]
    · simp only [List.any_cons, keys, List.map_cons, List.mem_cons]
      rw [Bool.or_eq_true, decide_eq_true_eq]
      constructor
      · rintro (hc | hc)
        · exact absurd hc h
        · exact Or.inr (ih.mp hc)
      · rintro (hc | hc)
        · exact absurd hc.symm h
        · exact Or.inr (ih.mpr hc)

theorem mapSet_eq_append [DecidableEq κ] (m : List (κ × α)) (k : κ) (v : α)
    (h : mapGet m k = none) : mapSet m k v = m ++ [(k, v)] := by
  have hk : k ∉ keys m := (mapGet_eq_none_iff m k).mp h
  unfold mapSet
  rw [if_neg]
  intro hc
  exact hk ((any_key_iff m k).mp hc)

theorem mapGet_map_update_self [DecidableEq κ] (m : List (κ × α)) (k : κ) (v : α)
    (h : k ∈ keys m) :
    mapGet (m.map (fun p => if p.1 = k then (k, v) else p)) k = some v := by
  induction m with
  | nil => simp [keys] at h
  | cons p m ih =>
    by_cases hp : p.1 = k
    · simp [hp, mapGet_cons]
    · have h' : k ∈ keys m := by
        rcases List.mem_map.mp h with ⟨q, hq, hq2⟩
        rcases List.mem_cons.mp hq with rfl | hq3
        · exact absurd hq2 hp
        · exact hq2 ▸ List.mem_map_of_mem (·.1) hq3
      simp [hp, mapGet_cons, ih h']

theorem mapGet_map_update_ne [DecidableEq κ] (m : List (κ × α)) (k t : κ) (v : α)
    (h : t ≠ k) :
    mapGet (m.map (fun p => if p.1 = k then (k, v) else p)) t = mapGet m t := by
  induction m with
  | nil => simp
  | cons p m ih =>
    by_cases hp : p.1 = k
    · simp [hp, mapGet_cons, Ne.symm h, ih]
    · simp only [List.map_cons, if_neg hp]
      rw [mapGet_cons, mapGet_cons, ih]

theorem mapGet_mapSet_self [DecidableEq κ] (m : List (κ × α)) (k : κ) (v : α) :
    mapGet (mapSet m k v) k = some v := by
  unfold mapSet
  split
  case isTrue h =>
    exact mapGet_map_update_self m k v ((any_key_iff m k).mp h)
  case isFalse h =>
    rw [mapGet_append]
    have : mapGet m k = none := by
      rw [mapGet_eq_none_iff]
      intro hc
      exact h ((any_key_iff m k).mpr hc)
    simp [this, mapGet_cons]

theorem mapGet_mapSet_ne [DecidableEq κ] (m : List (κ × α)) (k t : κ) (v : α)
    (h : t ≠ k) : mapGet (mapSet m k v) t = mapGet m t := by
  unfold mapSet
  split
  case isTrue _ => exact mapGet_map_update_ne m k t v h
  case isFalse _ =>
    rw [mapGet_append]
    cases hm : mapGet m t with
    | some w => rfl
    | none => simp [mapGet_cons, Ne.symm h]

theorem mapGet_mapDelete_self [DecidableEq κ] (m : List (κ × α)) (k : κ) :
    mapGet (mapDelete m k) k = none := by
  induction m with
  | nil => rfl
  | cons p m ih =>
    by_cases hp : p.1 = k
    · simpa [mapDelete, hp] using ih
    · simpa [mapDelete, hp, mapGet_cons] using ih

theorem keys_map_update [DecidableEq κ] (m : List (κ × α)) (k : κ) (v : α) :
    keys (m.map (fun p => if p.1 = k then (k, v) else p)) = keys m := by
  induction m with
  | nil => rfl
  | cons p m ih =>
    by_cases hp : p.1 = k <;> simp [keys, hp, ih] <;> simp [keys] at ih <;>
      simpa [hp] using ih

theorem keys_mapSet [DecidableEq κ] (m : List (κ × α)) (k : κ) (v : α) :
    keys (mapSet m k v) = keys m ∨ keys (mapSet m k v) = keys m ++ [k] := by
  unfold mapSet
  split
  · exact Or.inl (keys_map_update m k v)
  · right
    simp [keys]

theorem mem_keys_mapSet [DecidableEq κ] (m : List (κ × α)) (k t : κ) (v : α)
    (h : t ∈ keys m) : t ∈ keys (mapSet m k v) := by
  rcases keys_mapSet m k v with hk | hk <;> rw [hk] <;> simp [h]

theorem keysNodup_mapSet [DecidableEq κ] (m : List (κ × α)) (k : κ) (v : α)
    (h : (keys m).Nodup) : (keys (mapSet m k v)).Nodup := by
  unfold mapSet
  split
  case isTrue _ => rwa [keys_map_update]
  case isFalse hany =>
    have hk : k ∉ keys m := fun hc => hany ((any_key_iff m k).mpr hc)
    simp only [keys, List.map_append, List.map_cons, List.map_nil]
    apply List.Nodup.append h (List.nodup_singleton k)
    intro a ha hc
    rw [List.mem_singleton] at hc
    subst hc
    exact hk ha

theorem keysNodup_mapDelete [DecidableEq κ] (m : List (κ × α)) (k : κ)
    (h : (keys m).Nodup) : (keys (mapDelete m k)).Nodup := by
  have hsub : List.Sublist (mapDelete m k) m := List.filter_sublist m
  have hmap := List.Sublist.map (fun p : κ × α => p.1) hsub
  exact h.sublist hmap

theorem mapGet_of_mem [DecidableEq κ] (m : List (κ × α)) (p : κ × α)
    (hnd : (keys m).Nodup) (hp : p ∈ m) : mapGet m p.1 = some p.2 := by
  induction m with
  | nil => simp at hp
  | cons q m ih =>
    simp only [keys, List.map_cons, List.nodup_cons] at hnd
    rcases List.mem_cons.mp hp with rfl | hp
    · simp [mapGet_cons]
    · have hne : q.1 ≠ p.1 := by
        intro hc
        exact hnd.1 (hc ▸ List.mem_map_of_mem (·.1) hp)
      rw [mapGet_cons, if_neg hne]
      exact ih hnd.2 hp

/-! ## Lemmas about object spread -/

theorem objGet_objSpread_not_mem (r : JsObj) :
    ∀ (o : JsObj) (k : String), (∀ q ∈ r, q.1 ≠ k) →
      objGet (objSpread o r) k = objGet o k := by
  induction r with
  | nil => intro o k h; rfl
  | cons q r ih =>
    intro o k h
    have hq : q.1 ≠ k := h q (List.mem_cons_self q r)
    have hr : ∀ q2 ∈ r, q2.1 ≠ k := fun q2 hq2 => h q2 (List.mem_cons_of_mem q hq2)
    show objGet (objSpread (objSet o q.1 q.2) r) k = objGet o k
    rw [ih (objSet o q.1 q.2) k hr]
    exact mapGet_mapSet_ne o q.1 k q.2 (fun hc => hq hc.symm)

theorem not_mem_keys_forall (r : JsObj) (k : String) (h : k ∉ keys r) :
    ∀ q ∈ r, q.1 ≠ k := by
  intro q hq hc
  exact h (hc ▸ List.mem_map_of_mem (·.1) hq)

/-- The tag survives the spread whenever the remote result does not itself
carry a `deviceId` property. -/
theorem objGet_tagDevice (id : String) (r : JsObj) (h : "deviceId" ∉ keys r) :
    objGet (tagDevice id r) "deviceId" = some (JsVal.str id) := by
  unfold tagDevice
  rw [objGet_objSpread_not_mem r _ _ (not_mem_keys_forall r _ h)]
  rfl

/-! ## Characterisation of the rebuilt aggregate -/

theorem devGet_addNode (agg : List (String × AggData)) (id : String)
    (n : NodeEntry) (t : String) :
    devGet (addNode agg id n) t =
      devGet agg t ++ List.replicate (if n.type ≠ "" ∧ n.type = t then 1 else 0) id := by
  unfold addNode
  by_cases hn : n.type = ""
  · simp [hn]
  · rw [if_neg hn]
    cases hm : mapGet agg n.type with
    | some e =>
      by_cases ht : n.type = t
      · subst ht
        rw [if_pos ⟨hn, rfl⟩]
        unfold devGet
        rw [mapGet_mapSet_self, hm]
        simp
      · rw [if_neg (fun hc => ht hc.2)]
        unfold devGet
        rw [mapGet_mapSet_ne agg n.type t _ (Ne.symm ht)]
        simp
    | none =>
      by_cases ht : n.type = t
      · subst ht
        rw [if_pos ⟨hn, rfl⟩]
        unfold devGet
        rw [mapGet_append, hm]
        simp [mapGet_cons]
      · rw [if_neg (fun hc => ht hc.2)]
        unfold devGet
        rw [mapGet_append]
        cases hmt : mapGet agg t with
        | some w => simp
        | none => simp [mapGet_cons, ht]

theorem devGet_addCatalog (cat : List NodeEntry) (id t : String) :
    ∀ agg, devGet (addCatalog agg id cat) t =
      devGet agg t ++ List.replicate (typeCount cat t) id := by
  induction cat with
  | nil => intro agg; simp [addCatalog, typeCount]
  | cons n cat ih =>
    intro agg
    show devGet (addCatalog (addNode agg id n) id cat) t = _
    rw [ih (addNode agg id n), devGet_addNode]
    rw [List.append_assoc, ← List.replicate_add]
    rfl

theorem devGet_rebuildFrom (devs : List (String × DeviceEntry)) (t : String) :
    ∀ agg, devGet (rebuildFrom agg devs) t = devGet agg t ++ contrib devs t := by
  induction devs with
  | nil => intro agg; simp [rebuildFrom, contrib]
  | cons p devs ih =>
    intro agg
    show devGet (rebuildFrom (addCatalog agg p.1 p.2.nodeCatalog) devs) t = _
    rw [ih, devGet_addCatalog]
    simp [contrib, List.append_assoc]

theorem devGet_rebuild (devs : List (String × DeviceEntry)) (t : String) :
    devGet (rebuildAggregatedCatalog devs) t = contrib devs t := by
  unfold rebuildAggregatedCatalog
  rw [devGet_rebuildFrom]
  rfl

theorem mem_contrib (devs : List (String × DeviceEntry)) (t d : String)
    (h : d ∈ contrib devs t) : d ∈ keys devs := by
  unfold contrib at h
  rcases List.mem_flatMap.mp h with ⟨p, hp, hd⟩
  rcases List.eq_of_mem_replicate hd with rfl
  exact List.mem_map_of_mem (·.1) hp

theorem typeCount_eq_count (cat : List NodeEntry) (t : String) :
    typeCount cat t = (catalogTypes cat).count t := by
  induction cat with
  | nil => rfl
  | cons n cat ih =>
    show (if n.type ≠ "" ∧ n.type = t then 1 else 0) + typeCount cat t = _
    unfold catalogTypes
    rw [List.filter_cons]
    by_cases hn : n.type = ""
    · rw [if_neg (fun hc : n.type ≠ "" ∧ n.type = t => hc.1 hn), if_neg (by simp [hn])]
      rw [ih]
      unfold catalogTypes
      omega
    · by_cases ht : n.type = t
      · rw [if_pos ⟨hn, ht⟩]
        rw [if_pos (show decide (n.type ≠ "") = true by simp [hn])]
        rw [List.map_cons, List.count_cons, ih,
          if_pos (show (n.type == t) = true by simp [ht])]
        unfold catalogTypes
        omega
      · rw [if_neg (fun hc : n.type ≠ "" ∧ n.type = t => ht hc.2)]
        rw [if_pos (show decide (n.type ≠ "") = true by simp [hn])]
        rw [List.map_cons, List.count_cons, ih,
          if_neg (show ¬ (n.type == t) = true by simp [ht])]
        unfold catalogTypes
        omega

theorem typeCount_le_one (cat : List NodeEntry) (t : String)
    (h : (catalogTypes cat).Nodup) : typeCount cat t ≤ 1 := by
  rw [typeCount_eq_count]
  exact List.nodup_iff_count_le_one.mp h t

theorem contrib_sublist (devs : List (String × DeviceEntry)) (t : String)
    (h : ∀ p ∈ devs, typeCount p.2.nodeCatalog t ≤ 1) :
    List.Sublist (contrib devs t) (keys devs) := by
  induction devs with
  | nil => simp [contrib, keys]
  | cons p devs ih =>
    have hk := h p (List.mem_cons_self p devs)
    have ih2 := ih (fun q hq => h q (List.mem_cons_of_mem p hq))
    show List.Sublist (List.replicate (typeCount p.2.nodeCatalog t) p.1 ++ contrib devs t)
      (p.1 :: keys devs)
    interval_cases hc : typeCount p.2.nodeCatalog t
    · simpa using List.Sublist.cons p.1 ih2
    · simpa using List.Sublist.cons₂ p.1 ih2

theorem keysNodup_append_single [DecidableEq κ] (m : List (κ × α)) (k : κ) (v : α)
    (h1 : (keys m).Nodup) (h2 : k ∉ keys m) : (keys (m ++ [(k, v)])).Nodup := by
  simp only [keys, List.map_append, List.map_cons, List.map_nil]
  apply List.Nodup.append h1 (List.nodup_singleton k)
  intro a ha hc
  rw [List.mem_singleton] at hc
  subst hc
  exact h2 ha

theorem keysNodup_addNode (agg : List (String × AggData)) (id : String)
    (n : NodeEntry) (h : (keys agg).Nodup) : (keys (addNode agg id n)).Nodup := by
  unfold addNode
  by_cases hn : n.type = ""
  · simpa [hn] using h
  · rw [if_neg hn]
    cases hm : mapGet agg n.type with
    | some e => exact keysNodup_mapSet agg n.type _ h
    | none =>
      exact keysNodup_append_single agg n.type _ h ((mapGet_eq_none_iff agg n.type).mp hm)

theorem keysNodup_addCatalog (cat : List NodeEntry) (id : String) :
    ∀ agg, (keys agg).Nodup → (keys (addCatalog agg id cat)).Nodup := by
  induction cat with
  | nil => intro agg h; exact h
  | cons n cat ih =>
    intro agg h
    exact ih (addNode agg id n) (keysNodup_addNode agg id n h)

theorem keysNodup_rebuildFrom (devs : List (String × DeviceEntry)) :
    ∀ agg, (keys agg).Nodup → (keys (rebuildFrom agg devs)).Nodup := by
  induction devs with
  | nil => intro agg h; exact h
  | cons p devs ih =>
    intro agg h
    exact ih _ (keysNodup_addCatalog p.2.nodeCatalog p.1 agg h)

theorem keysNodup_rebuild (devs : List (String × DeviceEntry)) :
    (keys (rebuildAggregatedCatalog devs)).Nodup :=
  keysNodup_rebuildFrom devs [] (by simp [keys])

/-- Every device id stored anywhere in a freshly rebuilt aggregate belongs to
a currently registered device. -/
theorem rebuild_devices_sub_keys (devs : List (String × DeviceEntry))
    (p : String × AggData) (hp : p ∈ rebuildAggregatedCatalog devs)
    (d : String) (hd : d ∈ p.2.devices) : d ∈ keys devs := by
  have hget := mapGet_of_mem _ p (keysNodup_rebuild devs) hp
  have hchar : p.2.devices = contrib devs p.1 := by
    have := devGet_rebuild devs p.1
    unfold devGet at this
    rw [hget] at this
    simpa using this
  exact mem_contrib devs p.1 d (hchar ▸ hd)

/-- Duplicate-freeness of the per-type device lists of a rebuild, provided the
registry keys are unique and every cached catalog lists each type at most
once. -/
theorem rebuild_devices_nodup (devs : List (String × DeviceEntry))
    (hkey : (keys devs).Nodup)
    (hcat : ∀ p ∈ devs, (catalogTypes p.2.nodeCatalog).Nodup)
    (p : String × AggData) (hp : p ∈ rebuildAggregatedCatalog devs) :
    p.2.devices.Nodup := by
  have hget := mapGet_of_mem _ p (keysNodup_rebuild devs) hp
  have hchar : p.2.devices = contrib devs p.1 := by
    have := devGet_rebuild devs p.1
    unfold devGet at this
    rw [hget] at this
    simpa using this
  rw [hchar]
  exact hkey.sublist
    (contrib_sublist devs p.1 (fun q hq => typeCount_le_one _ _ (hcat q hq)))

/-! ## Preservation lemmas for the registry state machine -/

theorem map_update_id [DecidableEq κ] (m : List (κ × α)) (k : κ) (v : α)
    (h : k ∉ keys m) : m.map (fun p => if p.1 = k then (k, v) else p) = m := by
  induction m with
  | nil => rfl
  | cons p m ih =>
    have hp : p.1 ≠ k := fun hc => h (by simp [keys, hc])
    have h2 : k ∉ keys m := fun hc => h (by simp [keys] at hc ⊢; exact Or.inr hc)
    simp [hp, ih h2]

theorem mem_mapSet [DecidableEq κ] (m : List (κ × α)) (k : κ) (v : α) (p : κ × α)
    (h : p ∈ mapSet m k v) : p ∈ m ∨ p = (k, v) := by
  unfold mapSet at h
  split at h
  · rcases List.mem_map.mp h with ⟨q, hq, hfq⟩
    by_cases hk : q.1 = k
    · right; rw [if_pos hk] at hfq; exact hfq.symm
    · left; rw [if_neg hk] at hfq; exact hfq ▸ hq
  · rcases List.mem_append.mp h with h | h
    · exact Or.inl h
    · right; simpa using h

theorem mem_mapDelete [DecidableEq κ] (m : List (κ × α)) (k : κ) (p : κ × α)
    (h : p ∈ mapDelete m k) : p ∈ m :=
  List.mem_of_mem_filter h

theorem rebuild_append_single (devs : List (String × DeviceEntry))
    (p : String × DeviceEntry) :
    rebuildAggregatedCatalog (devs ++ [p]) =
      addCatalog (rebuildAggregatedCatalog devs) p.1 p.2.nodeCatalog := by
  unfold rebuildAggregatedCatalog rebuildFrom
  rw [List.foldl_append]
  rfl

theorem step_rebuild_eq (s : ServerState) (e : Event)
    (hs : s.agg = rebuildAggregatedCatalog s.devices) (he : okEvent s e = true) :
    (step s e).1.agg = rebuildAggregatedCatalog (step s e).1.devices := by
  cases e with
  | registerDevice conn info freshId now fetched =>
    cases fetched with
    | some cat => simp [step]
    | none =>
      have hn : mapGet s.devices (deviceIdOf info freshId) = none := by
        simpa [okEvent] using he
      simp only [step]
      rw [mapSet_eq_append _ _ _ hn, rebuild_append_single]
      exact hs
  | registerClient conn info freshId now =>
    have hn : mapGet s.devices freshId = none := by
      simpa [okEvent] using he
    simp only [step]
    rw [mapSet_eq_append _ _ _ hn, rebuild_append_single]
    exact hs
  | wsClose conn =>
    simp only [step]
    cases hcd : mapGet s.connDevice conn with
    | none => exact hs
    | some d =>
      dsimp only
      by_cases hdev : (mapGet s.devices d).isSome
      · rw [if_pos hdev]
      · rw [if_neg hdev]
        exact hs

theorem run_rebuild_eq (evs : List Event) :
    ∀ s : ServerState, s.agg = rebuildAggregatedCatalog s.devices →
      okTrace s evs = true →
      (run s evs).agg = rebuildAggregatedCatalog (run s evs).devices := by
  induction evs with
  | nil => intro s hs _; exact hs
  | cons e evs ih =>
    intro s hs hok
    rw [okTrace, Bool.and_eq_true] at hok
    exact ih (step s e).1 (step_rebuild_eq s e hs hok.1) hok.2

theorem step_aggSub (s : ServerState) (e : Event)
    (hs : ∀ p ∈ s.agg, ∀ d ∈ p.2.devices, d ∈ keys s.devices) :
    ∀ p ∈ (step s e).1.agg, ∀ d ∈ p.2.devices, d ∈ keys (step s e).1.devices := by
  cases e with
  | registerDevice conn info freshId now fetched =>
    cases fetched with
    | some cat =>
      intro p hp d hd
      exact rebuild_devices_sub_keys _ p hp d hd
    | none =>
      intro p hp d hd
      exact mem_keys_mapSet _ _ _ _ (hs p hp d hd)
  | registerClient conn info freshId now =>
    intro p hp d hd
    exact mem_keys_mapSet _ _ _ _ (hs p hp d hd)
  | wsClose conn =>
    simp only [step]
    cases hcd : mapGet s.connDevice conn with
    | none => exact hs
    | some d0 =>
      dsimp only
      by_cases hdev : (mapGet s.devices d0).isSome
      · rw [if_pos hdev]
        intro p hp d hd
        exact rebuild_devices_sub_keys _ p hp d hd
      · rw [if_neg hdev]
        exact hs

theorem run_aggSub (evs : List Event) :
    ∀ s : ServerState, (∀ p ∈ s.agg, ∀ d ∈ p.2.devices, d ∈ keys s.devices) →
      ∀ p ∈ (run s evs).agg, ∀ d ∈ p.2.devices, d ∈ keys (run s evs).devices := by
  induction evs with
  | nil => intro s hs; exact hs
  | cons e evs ih => intro s hs; exact ih (step s e).1 (step_aggSub s e hs)

theorem step_keysNodup (s : ServerState) (e : Event)
    (h : (keys s.devices).Nodup) : (keys (step s e).1.devices).Nodup := by
  cases e with
  | registerDevice conn info freshId now fetched =>
    cases fetched with
    | some cat => exact keysNodup_mapSet _ _ _ (keysNodup_mapSet _ _ _ h)
    | none => exact keysNodup_mapSet _ _ _ h
  | registerClient conn info freshId now => exact keysNodup_mapSet _ _ _ h
  | wsClose conn =>
    simp only [step]
    cases hcd : mapGet s.connDevice conn with
    | none => exact h
    | some d0 =>
      dsimp only
      by_cases hdev : (mapGet s.devices d0).isSome
      · rw [if_pos hdev]
        exact keysNodup_mapDelete _ _ h
      · rw [if_neg hdev]
        exact h

theorem step_catalog_inv (s : ServerState) (e : Event)
    (h1 : (keys s.devices).Nodup)
    (h2 : ∀ p ∈ s.devices, (catalogTypes p.2.nodeCatalog).Nodup)
    (h3 : ∀ p ∈ s.agg, p.2.devices.Nodup)
    (hev : ∀ cat, (∃ conn info freshId now,
        e = Event.registerDevice conn info freshId now (some cat)) →
        (catalogTypes cat).Nodup) :
    (∀ p ∈ (step s e).1.devices, (catalogTypes p.2.nodeCatalog).Nodup) ∧
    (∀ p ∈ (step s e).1.agg, p.2.devices.Nodup) := by
  cases e with
  | registerDevice conn info freshId now fetched =>
    cases fetched with
    | some cat =>
      have hcat : (catalogTypes cat).Nodup :=
        hev cat ⟨conn, info, freshId, now, rfl⟩
      have hdev2 : ∀ p ∈ (step s (Event.registerDevice conn info freshId now (some cat))).1.devices,
          (catalogTypes p.2.nodeCatalog).Nodup := by
        intro p hp
        rcases mem_mapSet _ _ _ _ hp with hp1 | hp1
        · rcases mem_mapSet _ _ _ _ hp1 with hp2 | hp2
          · exact h2 p hp2
          · rw [hp2]; simp [catalogTypes]
        · rw [hp1]; exact hcat
      refine ⟨hdev2, ?_⟩
      intro p hp
      exact rebuild_devices_nodup _
        (keysNodup_mapSet _ _ _ (keysNodup_mapSet _ _ _ h1)) hdev2 p hp
    | none =>
      refine ⟨?_, h3⟩
      intro p hp
      rcases mem_mapSet _ _ _ _ hp with hp1 | hp1
      · exact h2 p hp1
      · rw [hp1]; simp [catalogTypes]
  | registerClient conn info freshId now =>
    refine ⟨?_, h3⟩
    intro p hp
    rcases mem_mapSet _ _ _ _ hp with hp1 | hp1
    · exact h2 p hp1
    · rw [hp1]; simp [catalogTypes]
  | wsClose conn =>
    simp only [step]
    cases hcd : mapGet s.connDevice conn with
    | none => exact ⟨h2, h3⟩
    | some d0 =>
      dsimp only
      by_cases hdev : (mapGet s.devices d0).isSome
      · rw [if_pos hdev]
        have hdev2 : ∀ p ∈ mapDelete s.devices d0, (catalogTypes p.2.nodeCatalog).Nodup :=
          fun p hp => h2 p (mem_mapDelete _ _ _ hp)
        refine ⟨hdev2, ?_⟩
        intro p hp
        exact rebuild_devices_nodup _ (keysNodup_mapDelete _ _ h1) hdev2 p hp
      · rw [if_neg hdev]
        exact ⟨h2, h3⟩

theorem nodupCatalogs_cons (e : Event) (es : List Event)
    (h : nodupCatalogs (e :: es) = true) :
    nodupCatalogs es = true ∧
    ∀ cat, (∃ conn info freshId now,
        e = Event.registerDevice conn info freshId now (some cat)) →
      (catalogTypes cat).Nodup := by
  cases e with
  | registerDevice conn info freshId now fetched =>
    cases fetched with
    | some cat =>
      rw [nodupCatalogs, Bool.and_eq_true] at h
      refine ⟨h.2, ?_⟩
      rintro cat2 ⟨c2, i2, f2, n2, heq⟩
      cases heq
      exact of_decide_eq_true h.1
    | none =>
      refine ⟨h, ?_⟩
      rintro cat2 ⟨c2, i2, f2, n2, heq⟩
      cases heq
  | registerClient conn info freshId now =>
    refine ⟨h, ?_⟩
    rintro cat2 ⟨c2, i2, f2, n2, heq⟩
    cases heq
  | wsClose conn =>
    refine ⟨h, ?_⟩
    rintro cat2 ⟨c2, i2, f2, n2, heq⟩
    cases heq

theorem run_catalog_inv (evs : List Event) :
    ∀ s : ServerState, (keys s.devices).Nodup →
      (∀ p ∈ s.devices, (catalogTypes p.2.nodeCatalog).Nodup) →
      (∀ p ∈ s.agg, p.2.devices.Nodup) →
      nodupCatalogs evs = true →
      ∀ p ∈ (run s evs).agg, p.2.devices.Nodup := by
  induction evs with
  | nil => intro s _ _ h3 _; exact h3
  | cons e evs ih =>
    intro s h1 h2 h3 hnc
    obtain ⟨hnc2, hev⟩ := nodupCatalogs_cons e evs hnc
    obtain ⟨h2s, h3s⟩ := step_catalog_inv s e h1 h2 h3 hev
    exact ih (step s e).1 (step_keysNodup s e h1) h2s h3s hnc2

/-! ## Claim C1 -/

/-- Claim C1 (amended).  For any sequence of register/unregister operations in
which every `registerDevice` whose catalog fetch fails, and every legacy
`registerClient`, registers an id not currently in the registry, the
aggregated catalog afterwards equals a from-scratch rebuild over exactly the
currently-registered devices' cached catalogs.  Unconditionally, in every
reachable state no aggregated entry lists the id of a device that is no
longer in the registry.  (The unamended claim fails when `registerDevice`
reuses a currently-registered id and its catalog fetch fails: the stale
aggregate is kept, see the counterexample.) -/
theorem C1_aggregate_rebuild (evs : List Event) :
    (okTrace initState evs = true →
      (run initState evs).agg = rebuildAggregatedCatalog (run initState evs).devices) ∧
    (∀ p ∈ (run initState evs).agg, ∀ d ∈ p.2.devices,
      d ∈ keys (run initState evs).devices) :=
  ⟨fun h => run_rebuild_eq evs initState rfl h,
   run_aggSub evs initState (by intro p hp; simp [initState] at hp)⟩

/-- Claim C1 counterexample: after registering device `"A"` with a one-node
catalog and then re-registering the same id on a new connection whose catalog
fetch fails, the aggregated catalog still lists the old catalog entry while a
from-scratch rebuild over the current registry is empty. -/
theorem C1_counterexample :
    (run initState evC1bad).agg ≠
      rebuildAggregatedCatalog (run initState evC1bad).devices := by
  decide

/-- Claim C1 witness: a concrete fresh-id trace satisfying the amended
hypothesis, on which the aggregate equals the rebuild. -/
theorem C1_aggregate_rebuild_witness :
    okTrace initState evC1good = true ∧
    (run initState evC1good).agg =
      rebuildAggregatedCatalog (run initState evC1good).devices :=
  ⟨by decide, (C1_aggregate_rebuild evC1good).1 (by decide)⟩

/-! ## Claim C8 -/

/-- Claim C8 (amended).  In every reachable state in which every catalog
delivered by a fetch lists each (nonempty) node type at most once, the
aggregated catalog stores no duplicate device ids under any capability type.
(The unamended claim, quantifying over arbitrary catalog contents, fails: a
catalog listing the same type twice makes the rebuild push the same device id
twice, see the counterexample.) -/
theorem C8_no_duplicate_ids (evs : List Event) (h : nodupCatalogs evs = true) :
    ∀ p ∈ (run initState evs).agg, p.2.devices.Nodup :=
  run_catalog_inv evs initState (by simp [initState, keys])
    (by intro p hp; simp [initState] at hp)
    (by intro p hp; simp [initState] at hp) h

/-- Claim C8 counterexample: one device whose fetched catalog lists `inject`
twice yields the aggregated entry `inject ↦ ["A", "A"]`. -/
theorem C8_counterexample :
    ¬ (∀ p ∈ (run initState evC8bad).agg, p.2.devices.Nodup) := by
  decide

/-- Claim C8 witness: two devices with duplicate-free catalogs sharing a
type; the aggregated device lists are duplicate-free. -/
theorem C8_no_duplicate_ids_witness :
    nodupCatalogs evC8good = true ∧
    ∀ p ∈ (run initState evC8good).agg, p.2.devices.Nodup :=
  ⟨by decide, C8_no_duplicate_ids evC8good (by decide)⟩

/-! ## Claim C6 -/

/-- Claim C6 (amended).  `registerDevice` registers under the caller-supplied
id when one is present and nonempty, and under the generated fresh id when the
id is absent or empty (JS `info?.id || generateDeviceId()` treats the empty
string as absent); `registerClient` always registers under the generated id,
ignoring the caller's payload entirely; both insert the record with status
`"online"` and answer `{ success: true, deviceId }`. -/
theorem C6_registration_ids :
    (∀ info freshId, (info.id = none ∨ info.id = some "") →
      deviceIdOf info freshId = freshId) ∧
    (∀ info freshId v, info.id = some v → v ≠ "" → deviceIdOf info freshId = v) ∧
    (∀ (s : ServerState) conn info freshId now fetched,
      ∃ e, mapGet ((step s (Event.registerDevice conn info freshId now fetched)).1).devices
          (deviceIdOf info freshId) = some e ∧
        e.registration.id = deviceIdOf info freshId ∧
        e.registration.status = "online" ∧
        (step s (Event.registerDevice conn info freshId now fetched)).2 =
          some { success := true, deviceId := deviceIdOf info freshId }) ∧
    (∀ (s : ServerState) conn info freshId now,
      ∃ e, mapGet ((step s (Event.registerClient conn info freshId now)).1).devices
          freshId = some e ∧
        e.registration.id = freshId ∧
        e.registration.status = "online" ∧
        (step s (Event.registerClient conn info freshId now)).2 =
          some { success := true, deviceId := freshId }) := by
  refine ⟨?_, ?_, ?_, ?_⟩
  · rintro info freshId (h | h) <;> simp [deviceIdOf, jsOrOpt, jsOr, h]
  · intro info freshId v h hv
    simp [deviceIdOf, jsOrOpt, jsOr, h, hv]
  · intro s conn info freshId now fetched
    cases fetched with
    | some cat => exact ⟨_, mapGet_mapSet_self _ _ _, rfl, rfl, rfl⟩
    | none => exact ⟨_, mapGet_mapSet_self _ _ _, rfl, rfl, rfl⟩
  · intro s conn info freshId now
    exact ⟨_, mapGet_mapSet_self _ _ _, rfl, rfl, rfl⟩

/-- Claim C6 counterexample: a caller-supplied id that is present but empty
is not honoured — the record is registered under the generated id instead. -/
theorem C6_counterexample :
    (regInfo (some "")).id = some "" ∧
    deviceIdOf (regInfo (some "")) "device-f9" ≠ "" ∧
    keys ((step initState
      (Event.registerDevice 1 (regInfo (some "")) "device-f9" 0 none)).1).devices =
      ["device-f9"] := by
  decide

/-- Claim C6 witness: concrete registrations exercising each clause of the
amended claim. -/
theorem C6_registration_ids_witness :
    deviceIdOf (regInfo none) "device-a1" = "device-a1" ∧
    deviceIdOf (regInfo (some "kiosk")) "device-a1" = "kiosk" ∧
    (∃ e, mapGet ((step initState
        (Event.registerDevice 1 (regInfo (some "kiosk")) "device-a1" 0 none)).1).devices
        (deviceIdOf (regInfo (some "kiosk")) "device-a1") = some e ∧
      e.registration.id = deviceIdOf (regInfo (some "kiosk")) "device-a1" ∧
      e.registration.status = "online" ∧
      (step initState
        (Event.registerDevice 1 (regInfo (some "kiosk")) "device-a1" 0 none)).2 =
        some { success := true, deviceId := deviceIdOf (regInfo (some "kiosk")) "device-a1" }) ∧
    (∃ e, mapGet ((step initState
        (Event.registerClient 2 (regInfo (some "ignored")) "device-b2" 1)).1).devices
        "device-b2" = some e ∧
      e.registration.id = "device-b2" ∧
      e.registration.status = "online" ∧
      (step initState
        (Event.registerClient 2 (regInfo (some "ignored")) "device-b2" 1)).2 =
        some { success := true, deviceId := "device-b2" }) :=
  ⟨C6_registration_ids.1 (regInfo none) "device-a1" (Or.inl rfl),
   C6_registration_ids.2.1 (regInfo (some "kiosk")) "device-a1" "kiosk" rfl (by decide),
   C6_registration_ids.2.2.1 initState 1 (regInfo (some "kiosk")) "device-a1" 0 none,
   C6_registration_ids.2.2.2 initState 2 (regInfo (some "ignored")) "device-b2" 1⟩

theorem step_wsClose_delete (s : ServerState) (conn : Nat) (d : String)
    (hc : mapGet s.connDevice conn = some d)
    (hd : (mapGet s.devices d).isSome = true) :
    (step s (Event.wsClose conn)).1.devices = mapDelete s.devices d := by
  simp only [step]
  rw [hc]
  dsimp only
  rw [if_pos hd]

/-! ## Claim C10 -/

/-- Claim C10.  `registerDevice` with a caller-supplied id equal to an
already-registered device's id does not fail: it answers
`{ success: true, deviceId }` and silently replaces the stored registry entry
with the new connection's record; a subsequent close of the older
connection's WebSocket then removes whatever record is currently stored
under that id (here the new connection's record). -/
theorem C10_reregister_and_close (s : ServerState) (c1 c2 : Nat) (info : RegInfo)
    (freshId : String) (now : Nat) (fetched : Option (List NodeEntry)) (A : String)
    (hA : deviceIdOf info freshId = A)
    (hold : mapGet s.connDevice c1 = some A)
    (hdev : (mapGet s.devices A).isSome = true)
    (hne : c1 ≠ c2) :
    (step s (Event.registerDevice c2 info freshId now fetched)).2 =
      some { success := true, deviceId := A } ∧
    (∃ e, mapGet (step s (Event.registerDevice c2 info freshId now fetched)).1.devices A =
        some e ∧ e.connId = c2 ∧ e.registration = mkRegistration A now info) ∧
    mapGet ((step (step s (Event.registerDevice c2 info freshId now fetched)).1
        (Event.wsClose c1)).1).devices A = none := by
  subst hA
  have hconn : mapGet
      ((step s (Event.registerDevice c2 info freshId now fetched)).1).connDevice c1 =
      some (deviceIdOf info freshId) := by
    cases fetched with
    | some cat =>
      show mapGet (mapSet s.connDevice c2 (deviceIdOf info freshId)) c1 = _
      rw [mapGet_mapSet_ne _ _ _ _ hne]
      exact hold
    | none =>
      show mapGet (mapSet s.connDevice c2 (deviceIdOf info freshId)) c1 = _
      rw [mapGet_mapSet_ne _ _ _ _ hne]
      exact hold
  have hstore : ∃ e, mapGet
      ((step s (Event.registerDevice c2 info freshId now fetched)).1).devices
        (deviceIdOf info freshId) = some e ∧
      e.connId = c2 ∧ e.registration = mkRegistration (deviceIdOf info freshId) now info := by
    cases fetched with
    | some cat => exact ⟨_, mapGet_mapSet_self _ _ _, rfl, rfl⟩
    | none => exact ⟨_, mapGet_mapSet_self _ _ _, rfl, rfl⟩
  refine ⟨by cases fetched <;> rfl, hstore, ?_⟩
  obtain ⟨e, he, _, _⟩ := hstore
  rw [step_wsClose_delete _ c1 (deviceIdOf info freshId) hconn (by rw [he]; rfl)]
  exact mapGet_mapDelete_self _ _

/-- Claim C10 witness: connection 1 registers id `"A"`, connection 2
re-registers the same id (the hypotheses of the theorem hold concretely), and
closing connection 1's socket removes the record now stored under `"A"`. -/
theorem C10_reregister_and_close_witness :
    deviceIdOf (regInfo (some "A")) "device-f2" = "A" ∧
    mapGet ((step initState
      (Event.registerDevice 1 (regInfo (some "A")) "device-f1" 0 none)).1).connDevice 1 =
      some "A" ∧
    (mapGet ((step initState
      (Event.registerDevice 1 (regInfo (some "A")) "device-f1" 0 none)).1).devices "A").isSome
      = true ∧
    mapGet (step (step (step initState
      (Event.registerDevice 1 (regInfo (some "A")) "device-f1" 0 none)).1
      (Event.registerDevice 2 (regInfo (some "A")) "device-f2" 1 none)).1
      (Event.wsClose 1)).1.devices "A" = none :=
  ⟨by decide, by decide, by decide,
   (C10_reregister_and_close
     (step initState (Event.registerDevice 1 (regInfo (some "A")) "device-f1" 0 none)).1
     1 2 (regInfo (some "A")) "device-f2" 1 none "A"
     (by decide) (by decide) (by decide) (by decide)).2.2⟩

/-! ## Claim C5 -/

/-- Claim C5.  For every JSON-RPC request processed by the dispatcher, a
response object is produced iff the request carried an `id` and its method is
not `notifications/initialized`: id-less requests are never answered, even
for unknown methods or when handling throws, and `notifications/initialized`
is never answered even with an id present. -/
theorem C5_response_iff_id (env : Env) (req : Request) :
    (handleRequest env req).isSome = true ↔
      req.id.isSome = true ∧ req.method ≠ "notifications/initialized" := by
  by_cases hm : req.method = "notifications/initialized"
  · simp [handleRequest, hm]
  · cases hd : dispatchMethod env req.method req.params with
    | ok r => simp [handleRequest, hm, hd]
    | error m => simp [handleRequest, hm, hd]

/-! ## Claim C9 -/

theorem not_mem_sseStep (sessions : List String) (s : String) (e : SseEvent)
    (hs : s ∉ sessions) (he : e ≠ SseEvent.sseOpen s) : s ∉ sseStep sessions e := by
  cases e with
  | sseOpen sid =>
    have hne : sid ≠ s := fun hc => he (by rw [hc])
    by_cases hmem : sid ∈ sessions
    · simpa [sseStep, hmem] using hs
    · simp only [sseStep, if_neg hmem]
      intro hc
      rcases List.mem_append.mp hc with hc | hc
      · exact hs hc
      · rw [List.mem_singleton] at hc
        exact hne hc.symm
  | sseClose sid =>
    intro hc
    exact hs (List.mem_of_mem_filter hc)

theorem not_mem_sseRun (evs : List SseEvent) :
    ∀ (sessions : List String) (s : String), s ∉ sessions →
      (∀ e ∈ evs, e ≠ SseEvent.sseOpen s) → s ∉ sseRun sessions evs := by
  induction evs with
  | nil => intro sessions s hs _; exact hs
  | cons e evs ih =>
    intro sessions s hs he
    exact ih _ s (not_mem_sseStep sessions s e hs (he e (List.mem_cons_self e evs)))
      (fun e2 h2 => he e2 (List.mem_cons_of_mem e h2))

/-- Claim C9.  A `POST /message` whose session id is absent or unknown is
answered 400 and not dispatched; closing an SSE connection removes its
session, so — as long as no later connection is assigned that same generated
id — every subsequent POST against it is answered 400. -/
theorem C9_post_session_400 :
    (∀ sessions : List String, postMessage sessions none = PostOutcome.badRequest) ∧
    (∀ (sessions : List String) (sid : String), sid ∉ sessions →
      postMessage sessions (some sid) = PostOutcome.badRequest) ∧
    (∀ (sessions : List String) (sid : String) (evs : List SseEvent),
      (∀ e ∈ evs, e ≠ SseEvent.sseOpen sid) →
      postMessage (sseRun (sseStep sessions (SseEvent.sseClose sid)) evs) (some sid) =
        PostOutcome.badRequest) := by
  refine ⟨fun sessions => rfl, ?_, ?_⟩
  · intro sessions sid h
    simp [postMessage, h]
  · intro sessions sid evs he
    have hnm : sid ∉ sseRun (sseStep sessions (SseEvent.sseClose sid)) evs :=
      not_mem_sseRun evs _ sid (by simp [sseStep]) he
    simp [postMessage, hnm]

/-- Claim C9 witness: concrete sessions exercising all three clauses. -/
theorem C9_post_session_400_witness :
    postMessage ["s1"] none = PostOutcome.badRequest ∧
    ("nope" ∉ ["s1"] ∧
      postMessage ["s1"] (some "nope") = PostOutcome.badRequest) ∧
    ((∀ e ∈ ([SseEvent.sseOpen "s2"] : List SseEvent), e ≠ SseEvent.sseOpen "s1") ∧
      postMessage (sseRun (sseStep ["s1"] (SseEvent.sseClose "s1"))
        [SseEvent.sseOpen "s2"]) (some "s1") = PostOutcome.badRequest) :=
  ⟨C9_post_session_400.1 ["s1"],
   ⟨by decide, C9_post_session_400.2.1 ["s1"] "nope" (by decide)⟩,
   ⟨by decide, C9_post_session_400.2.2 ["s1"] "s1" [SseEvent.sseOpen "s2"] (by decide)⟩⟩

/-! ## Claim C2 -/

/-- Claim C2 (amended).  A broadcast over `n` registered devices returns
exactly `n` per-device entries; an entry for a rejecting device always
carries that device's id, `success: false`, and the error message; an entry
for a fulfilled device carries the device's id and `success: true` provided
the remote result does not itself contain a `deviceId` (resp. `success`)
property — the source spreads the result after the tag, so such a property
overrides the tag (see the counterexample); and entry `i` depends only on
device `i` and its own outcome, so one device's failure never removes,
alters, or prevents another device's entry. -/
theorem C2_broadcast_entries (devs : List (String × DeviceEntry))
    (oc : Nat → String → Except String JsObj) (method : String) :
    (broadcastCall devs oc method).length = devs.length ∧
    (∀ (i : Nat) (h : i < devs.length),
      (∀ m, oc (devs.get ⟨i, h⟩).2.connId method = Except.error m →
        (broadcastCall devs oc method)[i]? =
          some [("deviceId", JsVal.str (devs.get ⟨i, h⟩).1),
                ("success", JsVal.boolV false), ("error", JsVal.str m)]) ∧
      (∀ r, oc (devs.get ⟨i, h⟩).2.connId method = Except.ok r →
        (broadcastCall devs oc method)[i]? =
          some (objSpread [("deviceId", JsVal.str (devs.get ⟨i, h⟩).1),
            ("success", JsVal.boolV true)] r) ∧
        ("deviceId" ∉ keys r →
          objGet (objSpread [("deviceId", JsVal.str (devs.get ⟨i, h⟩).1),
            ("success", JsVal.boolV true)] r) "deviceId" =
            some (JsVal.str (devs.get ⟨i, h⟩).1)) ∧
        ("success" ∉ keys r →
          objGet (objSpread [("deviceId", JsVal.str (devs.get ⟨i, h⟩).1),
            ("success", JsVal.boolV true)] r) "success" =
            some (JsVal.boolV true)))) ∧
    (∀ (devs2 : List (String × DeviceEntry)) (oc2 : Nat → String → Except String JsObj)
      (i : Nat) (h1 : i < devs.length) (h2 : i < devs2.length),
      devs.get ⟨i, h1⟩ = devs2.get ⟨i, h2⟩ →
      oc (devs.get ⟨i, h1⟩).2.connId method = oc2 (devs2.get ⟨i, h2⟩).2.connId method →
      (broadcastCall devs oc method)[i]? = (broadcastCall devs2 oc2 method)[i]?) := by
  refine ⟨List.length_map devs _, ?_, ?_⟩
  · intro i h
    have hi : (broadcastCall devs oc method)[i]? =
        some (match oc (devs.get ⟨i, h⟩).2.connId method with
          | .ok r => objSpread [("deviceId", JsVal.str (devs.get ⟨i, h⟩).1),
              ("success", JsVal.boolV true)] r
          | .error m => [("deviceId", JsVal.str (devs.get ⟨i, h⟩).1),
              ("success", JsVal.boolV false), ("error", JsVal.str m)]) := by
      unfold broadcastCall
      rw [List.getElem?_map, List.getElem?_eq_getElem h]
      rfl
    refine ⟨?_, ?_⟩
    · intro m hm
      rw [hi, hm]
    · intro r hr
      refine ⟨by rw [hi, hr], ?_, ?_⟩
      · intro hcl
        rw [objGet_objSpread_not_mem r _ _ (not_mem_keys_forall r _ hcl)]
        simp [objGet, mapGet_cons]
      · intro hcl
        rw [objGet_objSpread_not_mem r _ _ (not_mem_keys_forall r _ hcl)]
        simp [objGet, mapGet_cons]
  · intro devs2 oc2 i h1 h2 hdev hoc
    unfold broadcastCall
    rw [List.getElem?_map, List.getElem?_map,
      List.getElem?_eq_getElem h1, List.getElem?_eq_getElem h2]
    simp only [List.get_eq_getElem] at hdev hoc
    simp only [Option.map_some']
    rw [hdev] at hoc ⊢
    rw [hoc]

/-- Claim C2 counterexample: broadcasting `deploy` to one device whose remote
result itself carries a `deviceId` property yields an entry whose `deviceId`
is the remote value `"evil"`, not the device's id `"d1"`. -/
theorem C2_counterexample :
    toolDeploy envEvil (some "all") =
      Except.ok (ToolVal.broadcastVal "deployedTo"
        (broadcastCall envEvil.devs envEvil.outcomes "deploy")) ∧
    ¬ entriesCarryIds envEvil.devs
        (broadcastCall envEvil.devs envEvil.outcomes "deploy") :=
  ⟨rfl, by decide⟩

/-- Claim C2 witness: three devices, the second rejecting with `"boom"`; the
amended theorem yields the failure entry, and the entry list has length 3. -/
theorem C2_broadcast_entries_witness :
    (broadcastCall envThree.devs envThree.outcomes "deploy").length =
      envThree.devs.length ∧
    envThree.outcomes (envThree.devs.get ⟨1, by decide⟩).2.connId "deploy" =
      Except.error "boom" ∧
    (broadcastCall envThree.devs envThree.outcomes "deploy")[1]? =
      some [("deviceId", JsVal.str "d2"), ("success", JsVal.boolV false),
            ("error", JsVal.str "boom")] :=
  ⟨(C2_broadcast_entries envThree.devs envThree.outcomes "deploy").1,
   rfl,
   ((C2_broadcast_entries envThree.devs envThree.outcomes "deploy").2.1 1
     (by decide)).1 "boom" rfl⟩

/-! ## Claim C3 -/

theorem length_broadcastTrace (devs : List (String × DeviceEntry)) :
    (broadcastTrace devs).length = 2 * devs.length := by
  induction devs with
  | nil => rfl
  | cons p devs ih =>
    simp only [broadcastTrace, List.length_cons, ih]
    omega

theorem broadcastTrace_getElem (devs : List (String × DeviceEntry)) :
    ∀ (i : Nat) (h : i < devs.length),
      (broadcastTrace devs)[2 * i]? =
        some (BcastStep.issue (devs.get ⟨i, h⟩).2.connId) ∧
      (broadcastTrace devs)[2 * i + 1]? =
        some (BcastStep.awaited (devs.get ⟨i, h⟩).2.connId) := by
  induction devs with
  | nil => intro i h; exact absurd h (Nat.not_lt_zero i)
  | cons p devs ih =>
    intro i h
    cases i with
    | zero =>
      constructor
      · show (BcastStep.issue p.2.connId :: BcastStep.awaited p.2.connId ::
          broadcastTrace devs)[2 * 0]? = _
        rw [show 2 * 0 = 0 by rfl, List.getElem?_cons_zero]
        rfl
      · show (BcastStep.issue p.2.connId :: BcastStep.awaited p.2.connId ::
          broadcastTrace devs)[2 * 0 + 1]? = _
        rw [show 2 * 0 + 1 = 0 + 1 by rfl, List.getElem?_cons_succ,
          List.getElem?_cons_zero]
        rfl
    | succ j =>
      have hj : j < devs.length := Nat.lt_of_succ_lt_succ h
      obtain ⟨h1, h2⟩ := ih j hj
      have e1 : 2 * (j + 1) = 2 * j + 1 + 1 := by omega
      have e2 : 2 * (j + 1) + 1 = 2 * j + 1 + 1 + 1 := by omega
      constructor
      · show (BcastStep.issue p.2.connId :: BcastStep.awaited p.2.connId ::
          broadcastTrace devs)[2 * (j + 1)]? = _
        rw [e1, List.getElem?_cons_succ, List.getElem?_cons_succ]
        exact h1
      · show (BcastStep.issue p.2.connId :: BcastStep.awaited p.2.connId ::
          broadcastTrace devs)[2 * (j + 1) + 1]? = _
        rw [e2, List.getElem?_cons_succ, List.getElem?_cons_succ]
        exact h2

/-- Claim C3 (amended).  The broadcast loop is sequential, not concurrent: the
trace of the loop is `issue d₀, await d₀, issue d₁, await d₁, …` — device `i`'s
call is awaited (trace position `2i+1`) strictly before device `j`'s call is
even issued (position `2j`) for every `i < j`.  Consequently a slow or
rejecting device delays all later devices, and total wall time is the sum of
the individual call times rather than their maximum.  (The original claim —
all calls issued before any result is awaited — fails already at two devices,
see the counterexample.) -/
theorem C3_broadcast_sequential (devs : List (String × DeviceEntry)) (i j : Nat)
    (hij : i < j) (hj : j < devs.length) :
    (broadcastTrace devs).length = 2 * devs.length ∧
    (broadcastTrace devs)[2 * i + 1]? =
      some (BcastStep.awaited (devs.get ⟨i, lt_trans hij hj⟩).2.connId) ∧
    (broadcastTrace devs)[2 * j]? =
      some (BcastStep.issue (devs.get ⟨j, hj⟩).2.connId) ∧
    2 * i + 1 < 2 * j :=
  ⟨length_broadcastTrace devs,
   (broadcastTrace_getElem devs i (lt_trans hij hj)).2,
   (broadcastTrace_getElem devs j hj).1,
   by omega⟩

/-- Claim C3 counterexample: with the three-device registry the loop's trace
interleaves issue/await per device, so it is not the case that every call is
issued before any result is awaited. -/
theorem C3_counterexample :
    broadcastTrace envThree.devs =
      [BcastStep.issue 1, BcastStep.awaited 1, BcastStep.issue 2,
       BcastStep.awaited 2, BcastStep.issue 3, BcastStep.awaited 3] ∧
    ¬ issuedBeforeAnyAwait (broadcastTrace envThree.devs) :=
  ⟨rfl, by decide⟩

/-- Claim C3 witness: the sequential-order theorem applied to the concrete
three-device registry at `i = 0`, `j = 1`. -/
theorem C3_broadcast_sequential_witness :
    (broadcastTrace envThree.devs).length = 2 * envThree.devs.length ∧
    (broadcastTrace envThree.devs)[1]? = some (BcastStep.awaited 1) ∧
    (broadcastTrace envThree.devs)[2]? = some (BcastStep.issue 2) ∧
    1 < 2 :=
  C3_broadcast_sequential envThree.devs 0 1 (by decide) (by decide)

/-! ## Claim C7 -/

/-- Claim C7 (amended).  For every single-device tool call that resolves a
device and whose remote call fulfils, the tool handlers that use the
`{ deviceId, ...result }` tagging pattern return the remote result tagged
with the serving device's registration id, and the returned object's
`deviceId` property equals that id provided the remote result does not itself
carry a `deviceId` property (the spread is applied after the tag, so a remote
`deviceId` property overrides it — see the counterexample; `get_device_details`
never tags at all and is likewise excluded). -/
theorem C7_result_tagging (env : Env) (did : Option String) (method : String)
    (d : DeviceEntry) (r : JsObj)
    (hfound : requireDevice env.devs did = RequireResult.found d)
    (hok : env.outcomes d.connId method = Except.ok r)
    (hclean : "deviceId" ∉ keys r) :
    singleCall env did method = Except.ok (ToolVal.obj (tagDevice d.registration.id r)) ∧
    objGet (tagDevice d.registration.id r) "deviceId" =
      some (JsVal.str d.registration.id) := by
  constructor
  · unfold singleCall
    rw [hfound]
    dsimp only
    rw [hok]
  · exact objGet_tagDevice _ _ hclean

/-- Claim C7 counterexample: a fulfilled `get_flows` call on device `"d1"`
whose remote result carries its own `deviceId` property returns an object
whose `deviceId` is the remote value `"evil"`, not the serving device's
registration id `"d1"`. -/
theorem C7_counterexample :
    singleCall envEvil (some "d1") "getFlows" =
      Except.ok (ToolVal.obj [("deviceId", JsVal.str "evil")]) ∧
    objGet [("deviceId", JsVal.str "evil")] "deviceId" =
      some (JsVal.str "evil") ∧
    (mkDev 1 "d1").registration.id = "d1" ∧
    JsVal.str "evil" ≠ JsVal.str "d1" :=
  ⟨rfl, rfl, rfl, by decide⟩

/-- Claim C7 witness: a clean remote result on device `"d1"` is tagged with
the serving registration id. -/
theorem C7_result_tagging_witness :
    requireDevice envThree.devs (some "d1") = RequireResult.found (mkDev 1 "d1") ∧
    envThree.outcomes (mkDev 1 "d1").connId "getFlows" =
      Except.ok [("ok", JsVal.boolV true)] ∧
    "deviceId" ∉ keys [("ok", JsVal.boolV true)] ∧
    singleCall envThree (some "d1") "getFlows" =
      Except.ok (ToolVal.obj (tagDevice "d1" [("ok", JsVal.boolV true)])) ∧
    objGet (tagDevice "d1" [("ok", JsVal.boolV true)]) "deviceId" =
      some (JsVal.str "d1") := by
  refine ⟨by decide, rfl, by decide, ?_, ?_⟩
  · exact (C7_result_tagging envThree (some "d1") "getFlows" (mkDev 1 "d1")
      [("ok", JsVal.boolV true)] (by decide) rfl (by decide)).1
  · exact (C7_result_tagging envThree (some "d1") "getFlows" (mkDev 1 "d1")
      [("ok", JsVal.boolV true)] (by decide) rfl (by decide)).2

/-! ## Claim C4 -/

theorem requireDevice_noDevices (devs : List (String × DeviceEntry))
    (did : Option String) (h1 : strTruthy did = false) (h2 : devs = []) :
    requireDevice devs did = RequireResult.advisory Advisory.noDevices := by
  subst h2
  simp [requireDevice, h1]

theorem requireDevice_choose (devs : List (String × DeviceEntry))
    (did : Option String) (h1 : strTruthy did = false) (h2 : devs ≠ []) :
    requireDevice devs did =
      RequireResult.advisory (Advisory.chooseDevice (deviceSummaries devs)) := by
  unfold requireDevice
  rw [if_pos h1, if_neg (fun hc => h2 (List.length_eq_zero.mp hc))]

theorem requireDevice_notFound (devs : List (String × DeviceEntry)) (d : String)
    (h1 : d ≠ "") (h2 : mapGet devs d = none) :
    requireDevice devs (some d) = RequireResult.advisory (Advisory.notFound d) := by
  unfold requireDevice
  rw [if_neg (by simp [strTruthy, h1])]
  show (match mapGet devs d with
    | none => RequireResult.advisory (Advisory.notFound d)
    | some dev => RequireResult.found dev) = _
  rw [h2]

theorem singleCall_advisory (env : Env) (did : Option String) (method : String)
    (a : Advisory) (hreq : requireDevice env.devs did = RequireResult.advisory a) :
    singleCall env did method = Except.ok (ToolVal.advisoryVal a) := by
  unfold singleCall
  rw [hreq]

theorem toolDeploy_advisory (env : Env) (did : Option String) (a : Advisory)
    (hall : did ≠ some "all")
    (hreq : requireDevice env.devs did = RequireResult.advisory a) :
    toolDeploy env did = Except.ok (ToolVal.advisoryVal a) := by
  unfold toolDeploy
  rw [if_neg hall]
  exact singleCall_advisory env did "deploy" a hreq

theorem toolSendMcpMessage_advisory (env : Env) (did : Option String) (a : Advisory)
    (hall : did ≠ some "all")
    (hreq : requireDevice env.devs did = RequireResult.advisory a) :
    toolSendMcpMessage env did = Except.ok (ToolVal.advisoryVal a) := by
  unfold toolSendMcpMessage
  rw [if_neg hall]
  exact singleCall_advisory env did "sendMessage" a hreq

theorem toolGetDeviceDetails_advisory (env : Env) (did : Option String) (a : Advisory)
    (hreq : requireDevice env.devs did = RequireResult.advisory a) :
    toolGetDeviceDetails env did = Except.ok (ToolVal.advisoryVal a) := by
  unfold toolGetDeviceDetails
  rw [hreq]

theorem toolGetStarted_advisory (env : Env) (did : Option String) (a : Advisory)
    (ht : strTruthy did = true)
    (hreq : requireDevice env.devs did = RequireResult.advisory a) :
    toolGetStarted env did = Except.ok (ToolVal.advisoryVal a) := by
  unfold toolGetStarted
  rw [if_neg (by simp [ht])]
  rw [hreq]

theorem toolUseCustomTool_advisory (env : Env) (did : Option String)
    (tn : Option String) (a : Advisory)
    (hreq : requireDevice env.devs did = RequireResult.advisory a) :
    toolUseCustomTool env did tn = Except.ok (ToolVal.advisoryVal a) := by
  unfold toolUseCustomTool
  rw [hreq]

/-- Any device-scoped tool (every tool except `list_devices`, and
`get_started` only when a device id was supplied) returns the advisory
produced by `requireDevice` as a normal (non-error) tool result. -/
theorem handleToolCall_advisory (env : Env) (p : ToolCallParams) (a : Advisory)
    (hmem : p.name ∈ toolNames)
    (hnl : p.name ≠ "list_devices")
    (hgs : p.name = "get_started" → strTruthy (argDevice p.args) = true)
    (hall : argDevice p.args ≠ some "all")
    (hreq : requireDevice env.devs (argDevice p.args) = RequireResult.advisory a) :
    handleToolCall env p = { body := ToolVal.advisoryVal a, isError := false } := by
  simp only [toolNames, List.mem_cons, List.not_mem_nil, or_false] at hmem
  rcases hmem with h|h|h|h|h|h|h|h|h|h|h|h|h|h|h|h|h|h|h|h|h|h|h|h|h
  · exact absurd h hnl
  · simp [handleToolCall, h, wrapCall,
      toolGetDeviceDetails_advisory env (argDevice p.args) a hreq]
  · simp [handleToolCall, h, wrapCall,
      toolGetStarted_advisory env (argDevice p.args) a (hgs h) hreq]
  · simp [handleToolCall, h, wrapCall,
      singleCall_advisory env (argDevice p.args) "getFlows" a hreq]
  · simp [handleToolCall, h, wrapCall,
      singleCall_advisory env (argDevice p.args) "createFlow" a hreq]
  · simp [handleToolCall, h, wrapCall,
      singleCall_advisory env (argDevice p.args) "addNodes" a hreq]
  · simp [handleToolCall, h, wrapCall,
      singleCall_advisory env (argDevice p.args) "updateNode" a hreq]
  · simp [handleToolCall, h, wrapCall,
      singleCall_advisory env (argDevice p.args) "deleteNode" a hreq]
  · simp [handleToolCall, h, wrapCall,
      toolDeploy_advisory env (argDevice p.args) a hall hreq]
  · simp [handleToolCall, h, wrapCall,
      singleCall_advisory env (argDevice p.args) "getDebugOutput" a hreq]
  · simp [handleToolCall, h, wrapCall,
      singleCall_advisory env (argDevice p.args) "getErrors" a hreq]
  · simp [handleToolCall, h, wrapCall,
      singleCall_advisory env (argDevice p.args) "getLogs" a hreq]
  · simp [handleToolCall, h, wrapCall,
      singleCall_advisory env (argDevice p.args) "clearLogs" a hreq]
  · simp [handleToolCall, h, wrapCall,
      singleCall_advisory env (argDevice p.args) "getInjectNodes" a hreq]
  · simp [handleToolCall, h, wrapCall,
      singleCall_advisory env (argDevice p.args) "inject" a hreq]
  · simp [handleToolCall, h, wrapCall,
      singleCall_advisory env (argDevice p.args) "getNodeDetails" a hreq]
  · simp [handleToolCall, h, wrapCall,
      singleCall_advisory env (argDevice p.args) "trigger" a hreq]
  · simp [handleToolCall, h, wrapCall,
      singleCall_advisory env (argDevice p.args) "clearDebug" a hreq]
  · simp [handleToolCall, h, wrapCall,
      singleCall_advisory env (argDevice p.args) "clearErrors" a hreq]
  · simp [handleToolCall, h, wrapCall,
      singleCall_advisory env (argDevice p.args) "getNodeStatuses" a hreq]
  · simp [handleToolCall, h, wrapCall,
      singleCall_advisory env (argDevice p.args) "getCanvasSvg" a hreq]
  · simp [handleToolCall, h, wrapCall,
      singleCall_advisory env (argDevice p.args) "getMessages" a hreq]
  · simp [handleToolCall, h, wrapCall,
      toolSendMcpMessage_advisory env (argDevice p.args) a hall hreq]
  · simp [handleToolCall, h, wrapCall,
      singleCall_advisory env (argDevice p.args) "getCustomTools" a hreq]
  · simp [handleToolCall, h, wrapCall,
      toolUseCustomTool_advisory env (argDevice p.args) (p.args.bind (·.name)) a hreq]

theorem notFound_mentions_list_devices (d : String) :
    List.IsInfix "list_devices".data (notFoundText d).data := by
  refine ⟨("Device \"" ++ d ++ "\" not found. Use ").data,
    " to see available devices.".data, ?_⟩
  have hseg : "\" not found. Use ".data ++
      ("list_devices".data ++ " to see available devices.".data) =
      "\" not found. Use list_devices to see available devices.".data := by
    decide
  simp only [notFoundText, String.data_append, List.append_assoc]
  rw [hseg]

/-- Claim C4.  For every device-scoped tool (every advertised tool except
`list_devices`, and `get_started` except when invoked without a device id,
the broadcast sentinel `"all"` being excluded since `deploy` and
`send_mcp_message` treat it as the broadcast selector, not a device name), a
call whose device id is missing (absent or empty, both falsy) or names no
registered device returns a normal advisory tool result — never an error
result and never a JSON-RPC protocol error: with zero devices the
connect-a-device advisory, with devices but none chosen the advisory carrying
the current device list, and with an unknown id the not-found advisory whose
text references the `list_devices` discovery tool. -/
theorem C4_resolution_advisory (env : Env) (p : ToolCallParams)
    (hmem : p.name ∈ toolNames)
    (hnl : p.name ≠ "list_devices")
    (hgs : p.name = "get_started" → strTruthy (argDevice p.args) = true)
    (hall : argDevice p.args ≠ some "all") :
    (strTruthy (argDevice p.args) = false → env.devs = [] →
      handleToolCall env p =
        { body := ToolVal.advisoryVal Advisory.noDevices, isError := false }) ∧
    (strTruthy (argDevice p.args) = false → env.devs ≠ [] →
      handleToolCall env p =
        { body := ToolVal.advisoryVal (Advisory.chooseDevice (deviceSummaries env.devs)),
          isError := false }) ∧
    (∀ d, argDevice p.args = some d → d ≠ "" → mapGet env.devs d = none →
      handleToolCall env p =
        { body := ToolVal.advisoryVal (Advisory.notFound d), isError := false } ∧
      List.IsInfix "list_devices".data (notFoundText d).data) ∧
    (∀ i, handleRequest env { id := some i, method := "tools/call", params := some p } =
      some (RpcResponse.result i (RpcResult.toolCallRes (handleToolCall env p)))) := by
  refine ⟨?_, ?_, ?_, fun i => rfl⟩
  · intro h1 h2
    exact handleToolCall_advisory env p _ hmem hnl hgs hall
      (requireDevice_noDevices env.devs _ h1 h2)
  · intro h1 h2
    exact handleToolCall_advisory env p _ hmem hnl hgs hall
      (requireDevice_choose env.devs _ h1 h2)
  · intro d hd hne hget
    refine ⟨?_, notFound_mentions_list_devices d⟩
    refine handleToolCall_advisory env p _ hmem hnl hgs hall ?_
    rw [hd]
    exact requireDevice_notFound env.devs d hne hget

/-- Claim C4 witness: concrete `get_flows` calls — with no devices connected,
with three devices but no device id, and with an unknown device id — each
yielding the corresponding advisory as a normal tool result. -/
theorem C4_resolution_advisory_witness :
    ("get_flows" ∈ toolNames ∧ "get_flows" ≠ "list_devices") ∧
    handleToolCall envNone { name := "get_flows", args := none } =
      { body := ToolVal.advisoryVal Advisory.noDevices, isError := false } ∧
    handleToolCall envThree { name := "get_flows", args := none } =
      { body := ToolVal.advisoryVal (Advisory.chooseDevice (deviceSummaries envThree.devs)),
        isError := false } ∧
    handleToolCall envThree { name := "get_flows", args := some (
        { deviceId := some "nope", argType := none, status := none,
          node := none, name := none } : Args) } =
      { body := ToolVal.advisoryVal (Advisory.notFound "nope"), isError := false } ∧
    List.IsInfix "list_devices".data (notFoundText "nope").data :=
  ⟨⟨by decide, by decide⟩,
   (C4_resolution_advisory envNone { name := "get_flows", args := none }
     (by decide) (by decide) (fun hc => absurd hc (by decide))
     (by decide)).1 rfl rfl,
   (C4_resolution_advisory envThree { name := "get_flows", args := none }
     (by decide) (by decide) (fun hc => absurd hc (by decide))
     (by decide)).2.1 rfl (by decide),
   ((C4_resolution_advisory envThree { name := "get_flows", args := some (
        { deviceId := some "nope", argType := none, status := none,
          node := none, name := none } : Args) }
     (by decide) (by decide) (fun hc => absurd hc (by decide))
     (by decide)).2.2.1 "nope" rfl (by decide) (by decide)).1,
   ((C4_resolution_advisory envThree { name := "get_flows", args := some (
        { deviceId := some "nope", argType := none, status := none,
          node := none, name := none } : Args) }
     (by decide) (by decide) (fun hc => absurd hc (by decide))
     (by decide)).2.2.1 "nope" rfl (by decide) (by decide)).2⟩

end PagenodesMcp
